import Mathlib

set_option linter.unusedVariables false

/-!
Verification of the Vercel adapter's route-table compiler
(`packages/adapter/src/index.ts` together with its routing helpers
`routing.ts` (= `src/unnamed/part_002`), `utils.ts` (= `src/unnamed/part_001`)
and the output handlers (= `src/unnamed/part_000`)).

Modelling conventions:
* JavaScript strings are Lean `String` (a wrapper around `List Char`);
  string truthiness is non-emptiness.
* `undefined` / optional values are `Option`.
* Route objects are one flat structure; a JSON field that is absent is the
  field's default value (`none`, `[]` or `false`).
* `path.posix.join` / `path.posix.normalize` are re-implemented below for
  the argument shapes the adapter uses (absolute or caret-prefixed paths,
  no `..` segments).
-/

namespace AdapterVercel

/-! ### String utilities -/

/-- `strStarts n h` decides whether the char list `n` is an initial run of `h`. -/
def strStarts : List Char → List Char → Bool
  | [], _ => true
  | _ :: _, [] => false
  | a :: as, b :: bs => a == b && strStarts as bs

/-- `strHasSub n h` decides whether `n` occurs contiguously inside `h`
(JavaScript `String.prototype.includes`). -/
def strHasSub (n : List Char) : List Char → Bool
  | [] => strStarts n []
  | c :: hs => strStarts n (c :: hs) || strHasSub n hs

/-- JavaScript `hay.includes(needle)`. -/
def containsSubstr (hay needle : String) : Bool :=
  strHasSub needle.data hay.data

/-- JavaScript `s.startsWith(p)`. -/
def strStartsWith (s p : String) : Bool :=
  strStarts p.data s.data

/-- JavaScript `s.endsWith(p)`. -/
def strEndsWith (s p : String) : Bool :=
  strStarts p.data.reverse s.data.reverse

/-- JavaScript `s.substring(n)` (drop the first `n` code units). -/
def strDrop (s : String) (n : Nat) : String :=
  String.mk (s.data.drop n)

/-- Drop the last `n` characters of `s`. -/
def strDropRight (s : String) (n : Nat) : String :=
  String.mk (s.data.take (s.data.length - n))

/-- Split a char list at the first occurrence of `sep`; `none` when absent. -/
def breakAt (sep : Char) : List Char → Option (List Char × List Char)
  | [] => none
  | c :: cs =>
    if c = sep then some ([], cs)
    else
      match breakAt sep cs with
      | none => none
      | some (a, b) => some (c :: a, b)

/-- The part of a char list before the first occurrence of `sep`
(the whole list when `sep` is absent). -/
def takeUntil (sep : Char) : List Char → List Char
  | [] => []
  | c :: cs => if c = sep then [] else c :: takeUntil sep cs

/-- Split a char list on every occurrence of `sep` (like `"a/b".split("/")`). -/
def splitChar (sep : Char) : List Char → List (List Char)
  | [] => [[]]
  | c :: cs =>
    let r := splitChar sep cs
    if c = sep then [] :: r
    else
      match r with
      | [] => [[c]]
      | g :: gs => (c :: g) :: gs

/-! ### `path.posix.normalize` / `path.posix.join`

Faithful to Node for the inputs this adapter produces: the joined strings
are absolute (`/...`) or start with a caret (`^/...`), contain no `.` or
`..` segments, and duplicate slashes are collapsed while a trailing slash
is preserved. -/

/-- Node `path.posix.normalize`. -/
def posixNormalize (s : String) : String :=
  let cs := s.data
  let isAbs : Bool := match cs with | '/' :: _ => true | _ => false
  let hasTrail : Bool := match cs.reverse with | '/' :: _ => true | _ => false
  let segs := (splitChar '/' cs).filter (fun g => !g.isEmpty && g != ['.'])
  let segs := segs.foldl
    (fun acc g =>
      if g == ['.', '.'] then
        if acc.isEmpty then (if isAbs then acc else acc ++ [g]) else acc.dropLast
      else acc ++ [g])
    ([] : List (List Char))
  let core := String.intercalate "/" (segs.map String.mk)
  if isAbs then
    if core = "" then "/" else "/" ++ core ++ (if hasTrail then "/" else "")
  else
    if core = "" then (if hasTrail then "./" else ".")
    else core ++ (if hasTrail then "/" else "")

/-- Node `path.posix.join`: drop empty parts, join with `/`, normalize. -/
def posixJoin (parts : List String) : String :=
  let filtered := parts.filter (fun p => p != "")
  if filtered.isEmpty then "." else posixNormalize (String.intercalate "/" filtered)

/-! ### The Pattern Escaper (`utils.ts`, `escapeStringRegexp`) and the inline
escape used at several places in `index.ts` / `routing.ts`
(`.replace(/[.*+?^${}()|[\]\\]/g, '\\$&')`). -/

/-- The characters escaped by `escapeStringRegexp` (`/[|\\{}()[\]^$+*?.-]/g`). -/
def regexMetaChars : List Char :=
  ['|', '\\', Char.ofNat 123, Char.ofNat 125, '(', ')', '[', ']',
   '^', '$', '+', '*', '?', '.', '-']

/-- The characters escaped by the inline escape (`/[.*+?^${}()|[\]\\]/g`);
unlike `escapeStringRegexp` it does not escape `-`. -/
def inlineMetaChars : List Char :=
  ['.', '*', '+', '?', '^', '$', Char.ofNat 123, Char.ofNat 125, '(', ')',
   '|', '[', ']', '\\']

/-- Prefix every character of `meta` occurring in the list with a backslash. -/
def escCharsWith (meta : List Char) : List Char → List Char
  | [] => []
  | c :: cs =>
    if c ∈ meta then '\\' :: c :: escCharsWith meta cs
    else c :: escCharsWith meta cs

/-- `escapeStringRegexp` from `utils.ts`. -/
def escapeStringRegexp (s : String) : String :=
  String.mk (escCharsWith regexMetaChars s.data)

/-- The inline `buildId/locale.replace(/[.*+?^${}()|[\]\\]/g, '\\$&')`. -/
def inlineEscape (s : String) : String :=
  String.mk (escCharsWith inlineMetaChars s.data)

/-! ### A small regular-expression matcher

Anchored (full-match) semantics for the fragment of the regex grammar
needed here: literal characters, `.` (any char), a postfix `?` on a single
character, and backslash escapes. Sufficient to evaluate the patterns the
compiler generates from escaped or unescaped literal segments. -/

/-- `charMatch c d`: pattern character `c` (not preceded by a backslash)
matches input character `d`. -/
def charMatch (c d : Char) : Bool := c == '.' || c == d

/-- `reMatch p t`: the pattern `p` matches the entire input `t`. -/
def reMatch : List Char → List Char → Bool
  | [], t => t.isEmpty
  | [c], t =>
    if c == '\\' then false
    else
      match t with
      | [d] => charMatch c d
      | _ => false
  | c :: e :: p, t =>
    if c == '\\' then
      match t with
      | d :: t' => e == d && reMatch p t'
      | [] => false
    else if e == '?' then
      reMatch p t ||
        match t with
        | d :: t' => charMatch c d && reMatch p t'
        | [] => false
    else
      match t with
      | d :: t' => charMatch c d && reMatch (e :: p) t'
      | [] => false

/-! ### Data model

The input (`BuildDescription`) mirrors the arguments of `onBuildComplete`
(`routes`, `config`, `buildId`, `outputs`) together with the facts the
adapter derives from `outputs` before building routes (`hasAppDir`,
`hasPagesDir`, `hasNotFoundOutput`, `has404Output`, `has500Output`,
the node-output parent map and the prerender outputs).
The output element (`Route`) mirrors `RouteWithSrc | Route` of
`@vercel/routing-utils` as the adapter populates it. -/

/-- A `has` / `missing` condition entry. -/
structure RouteCondition where
  type : String
  key : String
  value : Option String := none
deriving DecidableEq, Repr

/-- A `transforms` entry (used by the `x-nextjs-data` header injection). -/
structure Transform where
  type : String
  op : String
  targetKey : String
  args : String
deriving DecidableEq, Repr

/-- The `locale` field of a route (`redirect` mapping plus cookie name). -/
structure LocaleInfo where
  redirect : List (String × String)
  cookie : String
deriving DecidableEq, Repr

/-- One element of the produced `routes` array: either a phase marker
(`handle` set, everything else absent) or a matching directive. -/
structure Route where
  src : Option String := none
  dest : Option String := none
  handle : Option String := none
  status : Option Nat := none
  headers : List (String × String) := []
  has : List RouteCondition := []
  missing : List RouteCondition := []
  transforms : List Transform := []
  locale : Option LocaleInfo := none
  continue' : Bool := false
  override : Bool := false
  important : Bool := false
  check : Bool := false
  caseSensitive : Bool := false
  middlewarePath : Option String := none
  middlewareRawSrc : List String := []
deriving DecidableEq, Repr

/-- Phase marker route (`{ handle: '…' }`). -/
def marker (s : String) : Route := { handle := some s }

/-- A rewrite entry of `routes.rewrites.{beforeFiles,afterFiles,fallback}`. -/
structure RewriteEntry where
  sourceRegex : String
  destination : String
  has : List RouteCondition := []
  missing : List RouteCondition := []
deriving DecidableEq, Repr

/-- An entry of `routes.redirects`. -/
structure RedirectEntry where
  sourceRegex : String
  destination : String
  statusCode : Nat
  priority : Bool := false
  has : List RouteCondition := []
  missing : List RouteCondition := []
deriving DecidableEq, Repr

/-- An entry of `routes.headers`. -/
structure HeaderEntry where
  sourceRegex : String
  headers : List (String × String)
  priority : Bool := false
  has : List RouteCondition := []
  missing : List RouteCondition := []
deriving DecidableEq, Repr

/-- An entry of `routes.dynamicRoutes`. -/
structure DynamicRouteEntry where
  sourceRegex : String
  destination : String
  has : List RouteCondition := []
  missing : List RouteCondition := []
deriving DecidableEq, Repr

/-- An `i18n.domains` entry. -/
structure DomainConfig where
  domain : String
  defaultLocale : String
  locales : Option (List String) := none
  http : Bool := false
deriving DecidableEq, Repr

/-- The `config.i18n` object.  `localeDetection` is `Option Bool` so that
the JavaScript `!== false` / `=== false` tests are modelled exactly. -/
structure I18nConfig where
  defaultLocale : String
  locales : List String
  domains : Option (List DomainConfig) := none
  localeDetection : Option Bool := none
deriving DecidableEq, Repr

/-- The parts of `config` the route compiler reads.  `basePath = ""` is the
unset base path (JavaScript falsy). -/
structure Config where
  basePath : String := ""
  trailingSlash : Bool := false
  i18n : Option I18nConfig := none
  cacheComponents : Bool := false
  clientSegmentCache : Bool := false
deriving DecidableEq, Repr

/-- A middleware matcher (`outputs.middleware.config.matchers[i]`). -/
structure MiddlewareMatcher where
  sourceRegex : String
  source : Option String := none
  has : List RouteCondition := []
  missing : List RouteCondition := []
deriving DecidableEq, Repr

/-- The middleware output as the route compiler consumes it:
its `pathname` and its matchers. -/
structure MiddlewareOutput where
  pathname : String
  matchers : List MiddlewareMatcher
deriving DecidableEq, Repr

/-- A prerender output, restricted to the fields the
`prerenderFallbackFalseMap` loop reads.  `parentFallbackMode` is
`Option Bool` so the `=== false` test is modelled exactly. -/
structure PrerenderOutput where
  pathname : String
  parentOutputId : String
  parentFallbackMode : Option Bool := none
deriving DecidableEq, Repr

/-- The build description: `onBuildComplete`'s inputs plus the facts the
adapter derives from `outputs` before assembling the route table. -/
structure BuildDescription where
  config : Config := {}
  buildId : String := ""
  rewritesBeforeFiles : List RewriteEntry := []
  rewritesAfterFiles : List RewriteEntry := []
  rewritesFallback : List RewriteEntry := []
  redirects : List RedirectEntry := []
  headerRules : List HeaderEntry := []
  dynamicRoutes : List DynamicRouteEntry := []
  /-- `outputs.appPages.length > 0 || outputs.appRoutes.length > 0`. -/
  hasAppDir : Bool := false
  /-- `outputs.pages.length > 0 || outputs.pagesApi.length > 0`. -/
  hasPagesDir : Bool := false
  middleware : Option MiddlewareOutput := none
  /-- derived: some output pathname ends in `/_not-found`. -/
  hasNotFoundOutput : Bool := false
  /-- derived: some output pathname ends in `/404`. -/
  has404Output : Bool := false
  /-- derived: some output pathname ends in `/500`. -/
  has500Output : Bool := false
  prerenders : List PrerenderOutput := []
  /-- `nodeOutputsParentMap` as an association list `output.id ↦ pathname`. -/
  nodeOutputs : List (String × String) := []
deriving DecidableEq, Repr

/-- `Boolean(outputs.middleware)`. -/
def hasMiddleware (d : BuildDescription) : Bool := d.middleware.isSome

/-- `shouldHandleMiddlewareDataResolving = hasPagesDir && hasMiddleware`. -/
def shouldHandleMiddlewareDataResolving (d : BuildDescription) : Bool :=
  d.hasPagesDir && hasMiddleware d

/-- `Boolean(config.experimental.cacheComponents)`. -/
def shouldHandlePrefetchRsc (d : BuildDescription) : Bool :=
  d.config.cacheComponents

/-- `Boolean(config.experimental.clientSegmentCache || cacheComponents)`. -/
def shouldHandleSegmentPrefetches (d : BuildDescription) : Bool :=
  d.config.clientSegmentCache || d.config.cacheComponents

/-- `notFoundPath = hasNotFoundOutput ? '/_not-found' : has404Output ? '/404' : '/_error'`
(index.ts lines 121–125). -/
def notFoundPath (hasNotFoundOutput has404Output : Bool) : String :=
  if hasNotFoundOutput then "/_not-found"
  else if has404Output then "/404" else "/_error"

/-! ### `routing.ts` (`src/unnamed/part_002`) -/

/-- `normalize` inside `normalizeRewrites`: an `afterFiles`/`fallback`
rewrite entry becomes a check-route. -/
def normalizeRewriteEntry (e : RewriteEntry) : Route :=
  { src := some e.sourceRegex
    dest := some e.destination
    has := e.has
    missing := e.missing
    check := true }

/-- `beforeFiles` conversion: `delete route.check; continue = override = true`. -/
def beforeFilesRewriteEntry (e : RewriteEntry) : Route :=
  { normalizeRewriteEntry e with check := false, continue' := true, override := true }

/-- The alternation of partial-render suffixes built inside
`modifyWithRewriteHeaders` (`parts.join('|')`). -/
def rscSuffixOf (shouldHandlePrefetchRsc shouldHandleSegmentPrefetches : Bool) : String :=
  String.intercalate "|"
    (["\\.rsc"]
      ++ (if shouldHandlePrefetchRsc then ["\\.prefetch\\.rsc"] else [])
      ++ (if shouldHandleSegmentPrefetches then ["\\.segments/.+\\.segment\\.rsc"] else []))

/-- The replacement text `(?:/)?(?<rscsuff>…)?`. -/
def optTrailRepl (rsc : String) : String :=
  "(?:/)?(?<rscsuff>" ++ rsc ++ ")?"

/-- `src.replace(/(\\\/(\?)?)?\(\?:\\\/\)\?\$$/, '(?:/)?(?<rscsuff>…)?')`.
The regex is anchored at the end of the string, so the replacement fires
exactly when the source ends in one of the three suffixes
`\/?(?:\/)?$`, `\/(?:\/)?$`, `(?:\/)?$` (longest, i.e. earliest, match
wins); otherwise the source is returned unchanged. -/
def rewriteSrcSuffix (src rsc : String) : String :=
  if strEndsWith src "\\/?(?:\\/)?$" then strDropRight src 11 ++ optTrailRepl rsc
  else if strEndsWith src "\\/(?:\\/)?$" then strDropRight src 10 ++ optTrailRepl rsc
  else if strEndsWith src "(?:\\/)?$" then strDropRight src 8 ++ optTrailRepl rsc
  else src

/-- Insert `$rscsuff` into the destination, before the query string when one
is present and at the end otherwise. -/
def insertRscSuffix (dest : String) : String :=
  match breakAt '?' dest.data with
  | none => dest ++ "$rscsuff"
  | some (pre, post) => String.mk pre ++ "$rscsuff?" ++ String.mk post

/-- The body of `modifyWithRewriteHeaders` for a route whose `src` and
`dest` passed the falsy guard (both present and non-empty). -/
def modifyBody (isAfterFilesRewrite pf sp : Bool) (r : Route)
    (src dest : String) : Route :=
    let protocol : Bool := strStartsWith dest "http://" || strStartsWith dest "https://"
    -- pathname / query extraction happens before the rsc-suffix rewriting
    let pq : String × Option String :=
      if protocol then ("", none)
      else
        match breakAt '?' dest.data with
        | some (pre, post) => (String.mk pre, some (String.mk (takeUntil '#' post)))
        | none => (String.mk (takeUntil '#' dest.data), none)
    let pathname := pq.1
    let query := pq.2
    let src' := if isAfterFilesRewrite then rewriteSrcSuffix src (rscSuffixOf pf sp) else src
    let dest' := if isAfterFilesRewrite then insertRscSuffix dest else dest
    let queryTruthy : Bool := match query with | some q => q != "" | none => false
    if protocol || (pathname == "" && !queryTruthy) then
      { r with src := some src', dest := some dest' }
    else
      { r with
        src := some src'
        dest := some dest'
        headers := r.headers
          ++ (if pathname != "" then [("x-nextjs-rewritten-path", pathname)] else [])
          ++ (match query with
              | some q => if q != "" then [("x-nextjs-rewritten-query", q)] else []
              | none => []) }

/-- `modifyWithRewriteHeaders` applied to one route (the TypeScript function
mutates each array element in place; here it is the per-element map).
JavaScript `if (!rewrite.src || !rewrite.dest) continue`: a route whose
`src` or `dest` is absent or the empty string (falsy) is returned
unchanged. -/
def modifyWithRewriteHeaders (isAfterFilesRewrite pf sp : Bool) (r : Route) : Route :=
  match r.src, r.dest with
  | some src, some dest =>
    if src == "" || dest == "" then r
    else modifyBody isAfterFilesRewrite pf sp r src dest
  | _, _ => r

/-- `normalizeNextDataRoutes` (`routing.ts`). -/
def normalizeNextDataRoutes (cfg : Config) (buildId : String)
    (shouldHandleMiddlewareDataResolving : Bool) (isOverride : Bool) : List Route :=
  if !shouldHandleMiddlewareDataResolving then []
  else
    let basePath := cfg.basePath
    let trailingSlash := cfg.trailingSlash
    [ -- ensure x-nextjs-data header is always present
      { src := some (posixJoin ["/", basePath, "/_next/data/(.*)"])
        missing := [{ type := "header", key := "x-nextjs-data" }]
        transforms := [{ type := "request.headers", op := "append",
                         targetKey := "x-nextjs-data", args := "1" }]
        continue' := true },
      -- strip _next/data prefix for resolving
      { src := some ("^" ++ posixJoin
          ["/", basePath, "/_next/data/", inlineEscape buildId, "/(.*).json"])
        dest := some (posixJoin ["/", basePath, "/$1", if trailingSlash then "/" else ""])
        override := isOverride
        continue' := true
        has := [{ type := "header", key := "x-nextjs-data" }] },
      -- normalize "/index" to just "/"
      { src := some (posixJoin ["^/", basePath, "/index(?:/)?"])
        has := [{ type := "header", key := "x-nextjs-data" }]
        dest := some (posixJoin ["/", basePath, if trailingSlash then "/" else ""])
        override := isOverride
        continue' := true } ]

/-- `denormalizeNextDataRoutes` (`routing.ts`). -/
def denormalizeNextDataRoutes (cfg : Config) (buildId : String)
    (shouldHandleMiddlewareDataResolving : Bool) (isOverride : Bool) : List Route :=
  if !shouldHandleMiddlewareDataResolving then []
  else
    let basePath := cfg.basePath
    let trailingSlash := cfg.trailingSlash
    [ { src := some (posixJoin
          ["^/", if basePath != "" && basePath != "/" then
                   basePath ++ (if trailingSlash then "/$" else "$")
                 else "$"])
        has := [{ type := "header", key := "x-nextjs-data" }]
        dest := some (posixJoin ["/", basePath, "/_next/data/", buildId, "/index.json"])
        continue' := true
        override := isOverride },
      { src := some (posixJoin ["^/", basePath, "((?!_next/)(?:.*[^/]|.*))/?$"])
        has := [{ type := "header", key := "x-nextjs-data" }]
        dest := some (posixJoin ["/", basePath, "/_next/data/", buildId, "/$1.json"])
        continue' := true
        override := isOverride } ]

/-! ### `index.ts`: the route fragments, in emission order -/

/-- Escaped alternation of the configured locales
(`config.i18n.locales.map(escapeStringRegexp).join('|')`). -/
def localeAlt (i : I18nConfig) : String :=
  String.intercalate "|" (i.locales.map escapeStringRegexp)

/-- The same alternation but with the inline escape
(used only by the literal `/404` and `/500` rules). -/
def localeAltInline (i : I18nConfig) : String :=
  String.intercalate "|" (i.locales.map inlineEscape)

/-- Association-list upsert with JavaScript object-key semantics:
an existing key keeps its position and gets the new value. -/
def upsert (m : List (String × String)) (k v : String) : List (String × String) :=
  if m.any (fun kv => kv.1 == k) then
    m.map (fun kv => if kv.1 == k then (k, v) else kv)
  else m ++ [(k, v)]

/-- The `locale.redirect` map of the domain-redirect rule
(`config.i18n.domains.reduce(...)`, index.ts lines 371–387). -/
def domainRedirectMap (domains : List DomainConfig) : List (String × String) :=
  domains.foldl
    (fun prev item =>
      let scheme := "http" ++ (if item.http then "" else "s") ++ "://"
      let prev := upsert prev item.defaultLocale (scheme ++ item.domain ++ "/")
      match item.locales with
      | none => prev
      | some ls => ls.foldl (fun p l => upsert p l (scheme ++ item.domain ++ "/" ++ l)) prev)
    []

/-- The `locale.redirect` map of the root locale-redirect rule
(`config.i18n.locales.reduce(...)`, index.ts lines 405–414). -/
def localesRedirectMap (locales : List String) (defaultLocale : String) :
    List (String × String) :=
  locales.foldl
    (fun prev l => upsert prev l (if l = defaultLocale then "/" else "/" ++ l))
    []

/-- Priority redirects (`redirect.priority === true`), emitted first with
`continue: true` (index.ts lines 230–248 and 308). -/
def priorityRedirectRoutes (d : BuildDescription) : List Route :=
  (d.redirects.filter (fun e => e.priority)).map fun e =>
    { src := some e.sourceRegex
      headers := [("Location", e.destination)]
      status := some e.statusCode
      has := e.has
      missing := e.missing
      continue' := true }

/-- Non-priority redirects (index.ts lines 230–248 and 460). -/
def nonPriorityRedirectRoutes (d : BuildDescription) : List Route :=
  (d.redirects.filter (fun e => !e.priority)).map fun e =>
    { src := some e.sourceRegex
      headers := [("Location", e.destination)]
      status := some e.statusCode
      has := e.has
      missing := e.missing }

/-- User headers, all `continue: true`, `important` iff `priority`
(index.ts lines 249–265 and 458). -/
def headerRoutes (d : BuildDescription) : List Route :=
  d.headerRules.map fun e =>
    { src := some e.sourceRegex
      headers := e.headers
      continue' := true
      has := e.has
      missing := e.missing
      important := e.priority }

/-- Middleware matcher routes (`handleMiddleware`, outputs.ts lines 615–632). -/
def middlewareRoutesOf (d : BuildDescription) : List Route :=
  match d.middleware with
  | none => []
  | some mw =>
    mw.matchers.map fun m =>
      { continue' := true
        has := m.has
        src := some m.sourceRegex
        missing := m.missing
        middlewarePath := some mw.pathname
        -- `matcher.source ? [matcher.source] : []` — an empty string is falsy
        middlewareRawSrc := match m.source with
          | some s => if s == "" then [] else [s]
          | none => []
        override := true }

/-- The pre-redirect `_next/data` normalization pass
(index.ts lines 311–316, `isOverride = true`). -/
def preRedirectNormalize (d : BuildDescription) : List Route :=
  normalizeNextDataRoutes d.config d.buildId (shouldHandleMiddlewareDataResolving d) true

/-- The locale block emitted when `config.i18n` is set
(index.ts lines 318–456). -/
def i18nBlock (d : BuildDescription) : List Route :=
  match d.config.i18n with
  | none => []
  | some i =>
    let bp := d.config.basePath
    let bpPre := if bp != "" && bp != "/" then posixJoin ["/", bp] else ""
    [ -- $wildcard rule avoiding the /index route
      { src := some ("^" ++ posixJoin ["/", bp, "/"]
          ++ "(?!(?:_next/.*|" ++ localeAlt i ++ ")(?:/.*|$))$")
        dest := some (bpPre ++ "$wildcard" ++ (if d.config.trailingSlash then "/" else ""))
        continue' := true },
      -- $wildcard rule for all other paths
      { src := some ("^" ++ posixJoin ["/", bp, "/"]
          ++ "(?!(?:_next/.*|" ++ localeAlt i ++ ")(?:/.*|$))(.*)$")
        dest := some (bpPre ++ "$wildcard/$1")
        continue' := true } ]
    ++ (if (match i.domains with | some ds => !ds.isEmpty | none => false)
           && !(i.localeDetection == some false) then
          [ { src := some ("^" ++ posixJoin ["/", bp]
                ++ "/?(?:" ++ localeAlt i ++ ")?/?$")
              locale := some { redirect := domainRedirectMap (i.domains.getD []),
                               cookie := "NEXT_LOCALE" }
              continue' := true } ]
        else [])
    ++ (if !(i.localeDetection == some false) then
          [ { src := some "/"
              locale := some { redirect := localesRedirectMap i.locales i.defaultLocale,
                               cookie := "NEXT_LOCALE" }
              continue' := true } ]
        else [])
    ++ [ { src := some ("^" ++ posixJoin ["/", bp] ++ "$")
           dest := some (posixJoin ["/", bp, i.defaultLocale])
           continue' := true },
         -- auto-prefix non-locale path with default locale
         { src := some ("^" ++ posixJoin ["/", bp, "/"]
             ++ "(?!(?:_next/.*|" ++ localeAlt i ++ ")(?:/.*|$))(.*)$")
           dest := some (posixJoin ["/", bp, i.defaultLocale] ++ "/$1")
           continue' := true } ]

/-- The three rewrite groups after `normalizeRewrites` and the conditional
`modifyWithRewriteHeaders` passes (index.ts lines 207–225):
`(beforeFiles, afterFiles, fallback)`. -/
def processedRewrites (d : BuildDescription) : List Route × List Route × List Route :=
  let bf := d.rewritesBeforeFiles.map beforeFilesRewriteEntry
  let af := d.rewritesAfterFiles.map normalizeRewriteEntry
  let fb := d.rewritesFallback.map normalizeRewriteEntry
  let pf := shouldHandlePrefetchRsc d
  let sp := shouldHandleSegmentPrefetches d
  if pf || sp then
    (bf.map (modifyWithRewriteHeaders false pf sp),
     af.map (modifyWithRewriteHeaders true pf sp),
     fb.map (modifyWithRewriteHeaders false pf sp))
  else (bf, af, fb)

/-- `convertedRewrites.beforeFiles` as spliced into the route array. -/
def beforeFilesRoutes (d : BuildDescription) : List Route := (processedRewrites d).1

/-- `convertedRewrites.afterFiles` as spliced into the route array. -/
def afterFilesRoutes (d : BuildDescription) : List Route := (processedRewrites d).2.1

/-- `convertedRewrites.fallback` as spliced into the route array. -/
def fallbackRoutes (d : BuildDescription) : List Route := (processedRewrites d).2.2

/-- Literal `/404` (and locale variants) handling
(index.ts lines 470–502). -/
def literal404Block (d : BuildDescription) : List Route :=
  let bp := d.config.basePath
  match d.config.i18n with
  | some i =>
    [ { src := some (posixJoin ["/", bp, "/"]
          ++ "(?:" ++ localeAltInline i ++ ")?[/]?404/?")
        status := some 404
        continue' := true
        missing := [{ type := "header", key := "x-prerender-revalidate" }] } ]
  | none =>
    [ { src := some (posixJoin ["/", bp, "404/?"])
        status := some 404
        continue' := true
        missing := [{ type := "header", key := "x-prerender-revalidate" }] } ]

/-- Literal `/500` (and locale variants) handling
(index.ts lines 505–525). -/
def literal500Block (d : BuildDescription) : List Route :=
  let bp := d.config.basePath
  match d.config.i18n with
  | some i =>
    [ { src := some (posixJoin ["/", bp, "/"]
          ++ "(?:" ++ localeAltInline i ++ ")?[/]?500/?")
        status := some 500
        continue' := true } ]
  | none =>
    [ { src := some (posixJoin ["/", bp, "500/?"])
        status := some 500
        continue' := true } ]

/-- The pre-filesystem `_next/data` denormalization pass
(index.ts lines 528–533; note the call passes `isOverride = true`). -/
def preFilesystemDenormalize (d : BuildDescription) : List Route :=
  denormalizeNextDataRoutes d.config d.buildId (shouldHandleMiddlewareDataResolving d) true

/-- App Router RSC request rewriting (index.ts lines 536–576). -/
def appRscBlock (d : BuildDescription) : List Route :=
  if d.hasAppDir then
    let bp := d.config.basePath
    [ { src := some ("^" ++ posixJoin ["/", bp, "/?"])
        has := [{ type := "header", key := "rsc", value := some "1" }]
        dest := some (posixJoin ["/", bp, "/index.rsc"])
        headers := [("vary", "RSC, Next-Router-State-Tree, Next-Router-Prefetch")]
        continue' := true
        override := true },
      { src := some ("^" ++ posixJoin ["/", bp, "/((?!.+\\.rsc).+?)(?:/)?$"])
        has := [{ type := "header", key := "rsc", value := some "1" }]
        dest := some (posixJoin ["/", bp, "/$1.rsc"])
        headers := [("vary", "RSC, Next-Router-State-Tree, Next-Router-Prefetch")]
        continue' := true
        override := true } ]
  else []

/-- basePath-prefixed `_next/image` canonicalization
(index.ts lines 582–590, only when `config.basePath` is truthy). -/
def basePathImageBlock (d : BuildDescription) : List Route :=
  if d.config.basePath != "" then
    [ { src := some (posixJoin ["/", d.config.basePath, "_next/image/?"])
        dest := some "/_next/image"
        check := true } ]
  else []

/-- The post-filesystem `_next/data` normalization pass
(index.ts lines 593–598, `isOverride = false`). -/
def postFilesystemNormalize (d : BuildDescription) : List Route :=
  normalizeNextDataRoutes d.config d.buildId (shouldHandleMiddlewareDataResolving d) false

/-- The no-middleware `_next/data` self-rewrite (index.ts lines 600–610). -/
def noMiddlewareNextDataBlock (d : BuildDescription) : List Route :=
  if !hasMiddleware d then
    let bp := d.config.basePath
    [ { src := some (posixJoin ["/", bp, "_next/data/(.*)"])
        dest := some (posixJoin ["/", bp, "_next/data/$1"])
        check := true } ]
  else []

/-- `/index.rsc` → `/` normalization for App Router
(index.ts lines 613–625). -/
def indexRscBlock (d : BuildDescription) : List Route :=
  if d.hasAppDir then
    let bp := d.config.basePath
    [ { src := some (posixJoin ["/", bp, "/index(\\.action|\\.rsc)"])
        dest := some (posixJoin ["/", bp])
        continue' := true } ]
  else []

/-- `/.rsc` path repair for App Router (index.ts lines 630–643). -/
def rscRepairBlock (d : BuildDescription) : List Route :=
  if d.hasAppDir then
    let bp := d.config.basePath
    [ { src := some (posixJoin ["/", bp, "/\\.rsc$"])
        dest := some (posixJoin ["/", bp, "/index.rsc"])
        check := true },
      { src := some (posixJoin ["/", bp, "(.+)/\\.rsc$"])
        dest := some (posixJoin ["/", bp, "$1.rsc"])
        check := true } ]
  else []

/-- Directory-without-index 404 catch-all (index.ts line 651). -/
def catchAll404Block (d : BuildDescription) : List Route :=
  [ { src := some (posixJoin ["/", d.config.basePath, ".*"])
      status := some 404 } ]

/-- `_next/static` 404 to plain-text file (index.ts lines 656–668). -/
def staticNotFoundBlock (d : BuildDescription) : List Route :=
  let bp := d.config.basePath
  [ { src := some (posixJoin ["/", bp, "_next/static/.+"])
      status := some 404
      check := true
      dest := some (posixJoin ["/", bp, "_next/static/not-found.txt"])
      headers := [("content-type", "text/plain; charset=utf-8")] } ]

/-- Locale-prefix stripping for public-file resolution
(index.ts lines 673–727). -/
def localeStripBlock (d : BuildDescription) : List Route :=
  match d.config.i18n with
  | none => []
  | some i =>
    let bp := d.config.basePath
    (if i.localeDetection == some false then
       [ { src := some ("^" ++ posixJoin ["/", bp] ++ "$")
           dest := some (posixJoin ["/", bp, i.defaultLocale])
           check := true },
         { src := some ("^" ++ posixJoin ["/", bp, "/"]
             ++ "(?!(?:_next/.*|" ++ localeAlt i ++ ")(?:/.*|$))(.*)$")
           dest := some (posixJoin ["/", bp, i.defaultLocale] ++ "/$1")
           check := true } ]
     else [])
    ++ [ { src := some (posixJoin ["/", bp, escapeStringRegexp i.defaultLocale])
           dest := some "/"
           check := true },
         { src := some ("^" ++ posixJoin ["/", bp]
             ++ "/?(?:" ++ localeAlt i ++ ")/(.*)")
           dest := some (posixJoin ["/", bp, "/"] ++ "$1")
           check := true } ]

/-- Segment-prefetch fallback rewrite (index.ts lines 731–741). -/
def segmentFallbackBlock (d : BuildDescription) : List Route :=
  if shouldHandleSegmentPrefetches d then
    [ { src := some "^/(?<path>.+)(?<rscSuffix>\\.segments/.+\\.segment\\.rsc)(?:/)?$"
        dest := some ("/$path" ++ (if shouldHandlePrefetchRsc d then ".prefetch.rsc" else ".rsc"))
        check := true } ]
  else []

/-- The post-rewrite `_next/data` denormalization pass
(index.ts lines 746–751, `isOverride = false`). -/
def postRewriteDenormalize (d : BuildDescription) : List Route :=
  denormalizeNextDataRoutes d.config d.buildId (shouldHandleMiddlewareDataResolving d) false

/-- The synthetic `_next/data` 404 guard inserted among the dynamic routes
(index.ts lines 279–285). -/
def nextData404Route (bp : String) : Route :=
  { src := some (posixJoin ["/", bp, "_next/data/(.*)"])
    dest := some (posixJoin ["/", bp, "404"])
    status := some 404
    check := true }

/-- A user dynamic route converted to a check-route
(index.ts lines 288–294). -/
def dynRoute (e : DynamicRouteEntry) : Route :=
  { src := some e.sourceRegex
    dest := some e.destination
    check := true
    has := e.has
    missing := e.missing }

/-- The dynamic-routes loop (index.ts lines 267–295), with
`added` modelling `addedNextData404Route`. -/
def buildDynamicRoutesAux (insertGuard : Bool) (bp : String) :
    List DynamicRouteEntry → Bool → List Route
  | [], _ => []
  | e :: rest, added =>
    if insertGuard && !containsSubstr e.sourceRegex "_next/data" && !added then
      nextData404Route bp :: dynRoute e :: buildDynamicRoutesAux insertGuard bp rest true
    else dynRoute e :: buildDynamicRoutesAux insertGuard bp rest added

/-- The `dynamicRoutes` array as spliced into the route list. -/
def dynamicRoutesBlock (d : BuildDescription) : List Route :=
  buildDynamicRoutesAux (d.hasPagesDir && !hasMiddleware d) d.config.basePath
    d.dynamicRoutes false

/-- Middleware `x-nextjs-matched-path` header injection and
`__next_data_catchall` (index.ts lines 761–790). -/
def middlewareDataBlock (d : BuildDescription) : List Route :=
  if hasMiddleware d then
    let bp := d.config.basePath
    let src := "^" ++ posixJoin
      ["/", bp, "/_next/data/", escapeStringRegexp d.buildId, "/(.*).json"]
    [ { src := some src
        headers := [("x-nextjs-matched-path", "/$1")]
        continue' := true
        override := true },
      { src := some src
        dest := some "__next_data_catchall" } ]
  else []

/-- `MAX_AGE_ONE_YEAR` from `constants.ts`. -/
def MAX_AGE_ONE_YEAR : Nat := 31536000

/-- Immutable caching headers for Next.js-emitted static assets
(index.ts lines 795–810). -/
def cachingBlock (d : BuildDescription) : List Route :=
  [ { src := some (posixJoin
        ["/", d.config.basePath,
         "_next/static/(?:[^/]+/pages|pages|chunks|runtime|css|image|media|"
           ++ escapeStringRegexp d.buildId ++ ")/.+"])
      headers := [("cache-control",
        "public,max-age=" ++ toString MAX_AGE_ONE_YEAR ++ ",immutable")]
      continue' := true
      important := true } ]

/-- `x-matched-path` annotation rules (index.ts lines 811–833). -/
def xMatchedPathBlock (d : BuildDescription) : List Route :=
  let bp := d.config.basePath
  [ { src := some (if bp != "" && bp != "/" then
                     posixJoin ["/", bp, "/?(?:index)?(?:/)?$"]
                   else "/(?:index)?(?:/)?$")
      headers := [("x-matched-path", "/")]
      continue' := true
      important := true },
    { src := some (posixJoin ["/", bp, "/((?!index$).*?)(?:/)?$"])
      headers := [("x-matched-path", "/$1")]
      continue' := true
      important := true } ]

/-- Error-phase 404 fallback rules (index.ts lines 839–882). -/
def err404Block (d : BuildDescription) : List Route :=
  let bp := d.config.basePath
  let nf := notFoundPath d.hasNotFoundOutput d.has404Output
  match d.config.i18n with
  | some i =>
    [ { src := some (posixJoin ["/", bp, "/"]
          ++ "(?<nextLocale>" ++ localeAlt i ++ ")(/.*|$)")
        dest := some (posixJoin ["/", bp, "/$nextLocale", nf])
        status := some 404
        caseSensitive := true },
      { src := some (posixJoin ["/", bp, ".*"])
        dest := some (posixJoin ["/", bp, "/" ++ i.defaultLocale, nf])
        status := some 404 } ]
  | none =>
    [ { src := some (posixJoin
          ["/", bp, (if bp != "" && bp != "/" then "?" else "") ++ ".*"])
        dest := some (posixJoin ["/", bp, nf])
        status := some 404 } ]

/-- Error-phase 500 fallback rules (index.ts lines 885–926). -/
def err500Block (d : BuildDescription) : List Route :=
  let bp := d.config.basePath
  let plain : List Route :=
    [ { src := some (posixJoin
          ["/", bp, (if bp != "" && bp != "/" then "?" else "") ++ ".*"])
        dest := some (posixJoin ["/", bp, if d.has500Output then "/500" else "/_error"])
        status := some 500 } ]
  match d.config.i18n with
  | some i =>
    if d.has500Output then
      [ { src := some (posixJoin ["/", bp, "/"]
            ++ "(?<nextLocale>" ++ localeAlt i ++ ")(/.*|$)")
          dest := some (posixJoin ["/", bp, "/$nextLocale/500"])
          status := some 500
          caseSensitive := true },
        { src := some (posixJoin ["/", bp, ".*"])
          dest := some (posixJoin ["/", bp, "/" ++ i.defaultLocale ++ "/500"])
          status := some 500 } ]
    else plain
  | none => plain

/-- The complete `vercelConfig.routes` array (index.ts lines 297–927). -/
def vercelRoutes (d : BuildDescription) : List Route :=
  priorityRedirectRoutes d
  ++ preRedirectNormalize d
  ++ i18nBlock d
  ++ headerRoutes d
  ++ nonPriorityRedirectRoutes d
  ++ middlewareRoutesOf d
  ++ beforeFilesRoutes d
  ++ literal404Block d
  ++ literal500Block d
  ++ preFilesystemDenormalize d
  ++ appRscBlock d
  ++ [marker "filesystem"]
  ++ basePathImageBlock d
  ++ postFilesystemNormalize d
  ++ noMiddlewareNextDataBlock d
  ++ indexRscBlock d
  ++ afterFilesRoutes d
  ++ rscRepairBlock d
  ++ [marker "resource"]
  ++ fallbackRoutes d
  ++ catchAll404Block d
  ++ [marker "miss"]
  ++ staticNotFoundBlock d
  ++ localeStripBlock d
  ++ segmentFallbackBlock d
  ++ [marker "rewrite"]
  ++ postRewriteDenormalize d
  ++ dynamicRoutesBlock d
  ++ middlewareDataBlock d
  ++ [marker "hit"]
  ++ cachingBlock d
  ++ xMatchedPathBlock d
  ++ [marker "error"]
  ++ err404Block d
  ++ err500Block d

/-! ### The wildcard locale-domain table (index.ts lines 50–65) -/

/-- One entry of the top-level `wildcard` field. -/
structure WildcardEntry where
  domain : String
  value : String
deriving DecidableEq, Repr

/-- The value of one wildcard entry for a domain under an i18n config. -/
def wildcardEntry (i : I18nConfig) (dc : DomainConfig) : WildcardEntry :=
  { domain := dc.domain
    value := if dc.defaultLocale = i.defaultLocale then "" else "/" ++ dc.defaultLocale }

/-- The wildcard entries, one per configured domain in input order. -/
def wildcardEntries (i : I18nConfig) (ds : List DomainConfig) : List WildcardEntry :=
  ds.map (wildcardEntry i)

/-- `vercelConfig.wildcard`: present exactly when `i18nConfig?.domains` is
truthy (an empty domains array is truthy), absent otherwise. -/
def wildcardOf (d : BuildDescription) : Option (List WildcardEntry) :=
  match d.config.i18n with
  | none => none
  | some i =>
    match i.domains with
    | none => none
    | some ds => some (wildcardEntries i ds)

/-! ### `prerenderFallbackFalseMap` and the compile pipeline
(index.ts lines 137–162; the `throw` is modelled with `Except`). -/

/-- Association-list lookup (`Map.get`). -/
def lookupAssoc (m : List (String × String)) (k : String) : Option String :=
  match m with
  | [] => none
  | kv :: rest => if kv.1 = k then some kv.2 else lookupAssoc rest k

/-- Append `v` to the list at key `k`, creating the key at the end when
absent (the `currentMap` bookkeeping of the loop). -/
def mapInsertAppend (m : List (String × List String)) (k v : String) :
    List (String × List String) :=
  if m.any (fun kv => kv.1 == k) then
    m.map (fun kv => if kv.1 == k then (kv.1, kv.2 ++ [v]) else kv)
  else m ++ [(k, [v])]

/-- The filter of the prerender loop: `parentFallbackMode === false`,
pathname does not include `_next/data` and does not end in `.rsc`. -/
def prerenderNeedsParent (p : PrerenderOutput) : Bool :=
  p.parentFallbackMode == some false
    && !containsSubstr p.pathname "_next/data"
    && !strEndsWith p.pathname ".rsc"

/-- One iteration of the prerender loop; a missing parent output is the
fatal invariant violation. -/
def addPrerender (nodeOutputs : List (String × String)) (bp : String)
    (acc : List (String × List String)) (p : PrerenderOutput) :
    Except String (List (String × List String)) :=
  if prerenderNeedsParent p then
    match lookupAssoc nodeOutputs p.parentOutputId with
    | none =>
      .error ("Invariant: missing parent output " ++ p.parentOutputId
        ++ " for prerender " ++ p.pathname)
    | some parentPathname =>
      let parentPage := strDrop parentPathname bp.length
      .ok (mapInsertAppend acc parentPage (strDrop p.pathname bp.length))
  else .ok acc

/-- `prerenderFallbackFalseMap` construction over all prerender outputs. -/
def buildPrerenderFallbackFalseMap (d : BuildDescription) :
    Except String (List (String × List String)) :=
  d.prerenders.foldlM (addPrerender d.nodeOutputs d.config.basePath) []

/-- A prerender whose required parent output is missing from the
node-output map. -/
def badPrerender (d : BuildDescription) (p : PrerenderOutput) : Bool :=
  prerenderNeedsParent p && (lookupAssoc d.nodeOutputs p.parentOutputId).isNone

/-- The produced configuration value as far as the route compiler is
concerned: the wildcard table and the route list. -/
structure CompileResult where
  wildcard : Option (List WildcardEntry)
  routes : List Route
deriving DecidableEq, Repr

/-- The route-compiling part of `onBuildComplete`: first the
`prerenderFallbackFalseMap` loop runs (and can abort the build), then the
configuration with its route table is produced. -/
def compileBuild (d : BuildDescription) : Except String CompileResult :=
  match buildPrerenderFallbackFalseMap d with
  | .error e => .error e
  | .ok _ => .ok { wildcard := wildcardOf d, routes := vercelRoutes d }

/-! ### `operationType` (outputs.ts / `src/unnamed/part_000` lines 243–246)

`output.type === AdapterOutputType.APP_PAGE || AdapterOutputType.PAGES
  ? 'PAGE' : 'API'`
parses as `(output.type === APP_PAGE) || AdapterOutputType.PAGES`. -/

/-- `AdapterOutputType` from `next/dist/shared/lib/constants`. -/
inductive AdapterOutputType where
  | PAGES
  | PAGES_API
  | APP_PAGE
  | APP_ROUTE
  | PRERENDER
  | STATIC_FILE
  | MIDDLEWARE
deriving DecidableEq, Repr

/-- Modelled from the spec: `AdapterOutputType` is an enum imported from
Next.js (not part of this repository's sources); per the spec's
description of the `operationType` expression, the enum constant
`AdapterOutputType.PAGES` is a truthy value ("operator-precedence appears
to always evaluate one branch as truthy regardless of the tested enum
value"), i.e. a non-empty string enum member. -/
def adapterOutputTypePAGESTruthy : Bool := true

/-- The `operationType` computed by `handleNodeOutputs` with JavaScript
operator precedence: `(t === APP_PAGE) || AdapterOutputType.PAGES`. -/
def operationType (t : AdapterOutputType) : String :=
  if (t == AdapterOutputType.APP_PAGE) || adapterOutputTypePAGESTruthy
  then "PAGE" else "API"


/-! ### Lemmas about the escaper and the matcher -/

theorem escCharsWith_eq_nil {m : List Char} {cs : List Char} :
    escCharsWith m cs = [] ↔ cs = [] := by
  cases cs with
  | nil => simp [escCharsWith]
  | cons c cs =>
    constructor
    · intro h
      by_cases hm : c ∈ m <;> simp [escCharsWith, hm] at h
    · intro h
      exact absurd h (by simp)

theorem escCharsWith_head_ne_q (cs : List Char) :
    (escCharsWith regexMetaChars cs).head? ≠ some '?' := by
  cases cs with
  | nil => simp [escCharsWith]
  | cons c cs =>
    by_cases hm : c ∈ regexMetaChars
    · simp [escCharsWith, hm]
    · simp [escCharsWith, hm]
      intro hc
      exact hm (hc ▸ (by decide : '?' ∈ regexMetaChars))

theorem charMatch_ne_dot {c : Char} (h : c ≠ '.') (d : Char) :
    charMatch c d = (c == d) := by
  unfold charMatch
  rw [show (c == '.') = false from beq_eq_false_iff_ne.mpr h, Bool.false_or]

/-- Escaping and then matching (with full-match semantics) accepts exactly
the original string. -/
theorem reMatch_escCharsWith (cs : List Char) :
    ∀ t, reMatch (escCharsWith regexMetaChars cs) t = true ↔ cs = t := by
  induction cs with
  | nil =>
    intro t
    cases t <;> simp [escCharsWith, reMatch]
  | cons c cs ih =>
    intro t
    by_cases hm : c ∈ regexMetaChars
    · rw [show escCharsWith regexMetaChars (c :: cs)
            = '\\' :: c :: escCharsWith regexMetaChars cs from by
          simp [escCharsWith, hm]]
      cases t with
      | nil => simp [reMatch]
      | cons d t' => simp [reMatch, ih t']
    · have hb : c ≠ '\\' := fun h => hm (h ▸ (by decide : '\\' ∈ regexMetaChars))
      have hd : c ≠ '.' := fun h => hm (h ▸ (by decide : '.' ∈ regexMetaChars))
      rw [show escCharsWith regexMetaChars (c :: cs)
            = c :: escCharsWith regexMetaChars cs from by
          simp [escCharsWith, hm]]
      cases hrest : escCharsWith regexMetaChars cs with
      | nil =>
        have hcs : cs = [] := escCharsWith_eq_nil.mp hrest
        subst hcs
        cases t with
        | nil => simp [reMatch, hb]
        | cons d t' =>
          cases t' with
          | nil => simp [reMatch, hb, charMatch_ne_dot hd]
          | cons d' t'' => simp [reMatch, hb]
      | cons a as =>
        have ha : a ≠ '?' := by
          have := escCharsWith_head_ne_q cs
          rw [hrest] at this
          simpa using this
        cases t with
        | nil => simp [reMatch, hb, ha]
        | cons d t' =>
          rw [← hrest]
          have hstep : reMatch (c :: escCharsWith regexMetaChars cs) (d :: t')
              = (charMatch c d && reMatch (escCharsWith regexMetaChars cs) t') := by
            rw [hrest]
            simp [reMatch, hb, ha]
          rw [hstep, charMatch_ne_dot hd]
          simp [ih t']

/-! ### Concrete build descriptions used by counterexamples and witnesses -/

/-- basePath containing a regex metacharacter (`.`), no i18n. -/
def descC3x : BuildDescription := { config := { basePath := "/a.b" } }

/-- Claim C3 counterexample input: hasPagesDir + middleware so the
data-resolving passes are active. -/
def descC6x : BuildDescription :=
  { buildId := "b1"
    hasPagesDir := true
    middleware := some { pathname := "/middleware", matchers := [] } }

/-- i18n config with one domain for the wildcard table. -/
def i18nC10 : I18nConfig :=
  { defaultLocale := "en"
    locales := ["en", "fr"]
    domains := some [ { domain := "example.com", defaultLocale := "en" },
                      { domain := "example.fr", defaultLocale := "fr" } ] }

def domainsC10 : List DomainConfig :=
  [ { domain := "example.com", defaultLocale := "en" },
    { domain := "example.fr", defaultLocale := "fr" } ]

def descC10 : BuildDescription := { config := { i18n := some i18nC10 } }

/-! ### Claim C3 -/

/-- Claim C3, counterexample: the source embeds the base path into the
literal `/404` rule without any escaping (index.ts line 492 splices
`config.basePath` directly), so with `basePath = "/a.b"` the generated
pattern `/a.b/404/?` also matches the unintended path `/aXb/404`. -/
theorem claimC3_counterexample :
    (literal404Block descC3x).map Route.src = [some "/a.b/404/?"]
    ∧ reMatch "/a.b/404/?".data "/aXb/404".data = true
    ∧ ("/aXb/404" : String) ≠ "/a.b/404" := by
  refine ⟨by decide, by decide, by decide⟩

/-- Claim C3 (amended): locale codes and the build id are escaped (via
`escapeStringRegexp` or the equivalent inline character-class escape), and
escaping then matching accepts exactly the original literal string; the
base path, however, is embedded without escaping (see the counterexample). -/
theorem claimC3 (s t : String) :
    reMatch (escapeStringRegexp s).data t.data = true ↔ s = t := by
  have h := reMatch_escCharsWith s.data t.data
  unfold escapeStringRegexp
  constructor
  · intro hm
    have := h.mp hm
    cases s; cases t; exact congrArg String.mk this
  · intro he
    exact h.mpr (by rw [he])

/-- Claim C3 witness: the round-trip theorem applied at the concrete
locale code `en-US`. -/
theorem claimC3_witness :
    reMatch (escapeStringRegexp "en-US").data "en-US".data = true :=
  (claimC3 "en-US" "en-US").mpr rfl

/-! ### Claim C4 -/

/-- Claim C4: `operationType` written by `handleNodeOutputs` evaluated at
the failing input `APP_ROUTE`: the JavaScript condition
`output.type === AdapterOutputType.APP_PAGE || AdapterOutputType.PAGES`
is always truthy, so the code yields `'PAGE'` where the claim demands
`'API'`. -/
theorem claimC4 : operationType AdapterOutputType.APP_ROUTE = "PAGE" := rfl

/-! ### Claim C6 -/

/-- Claim C6, counterexample: the pre-filesystem denormalization pass
(index.ts lines 528–533) is called with `isOverride = true`, so both of
its rules carry `override: true`, contradicting "only the pre-redirect
normalization pass carries override"; moreover even in the pre-redirect
pass the header-injection rule does not carry the flag. -/
theorem claimC6_counterexample :
    (preFilesystemDenormalize descC6x).map Route.override = [true, true]
    ∧ (preRedirectNormalize descC6x).map Route.override = [false, true, true] := by
  refine ⟨by decide, by decide⟩

/-- Claim C6 (amended): among the four data-route passes, the pre-redirect
normalization pass and the pre-filesystem denormalization pass carry
`override: true` (except the header-injection rule of the normalization
pass, which never does); the post-filesystem normalization and the
post-rewrite denormalization passes are emitted without the flag. -/
theorem claimC6 (d : BuildDescription)
    (h : shouldHandleMiddlewareDataResolving d = true) :
    (preRedirectNormalize d).map Route.override = [false, true, true]
    ∧ (preFilesystemDenormalize d).map Route.override = [true, true]
    ∧ (postFilesystemNormalize d).map Route.override = [false, false, false]
    ∧ (postRewriteDenormalize d).map Route.override = [false, false] := by
  refine ⟨?_, ?_, ?_, ?_⟩ <;>
    simp [preRedirectNormalize, preFilesystemDenormalize, postFilesystemNormalize,
      postRewriteDenormalize, normalizeNextDataRoutes, denormalizeNextDataRoutes, h]

/-- Claim C6 witness: the amended theorem at a concrete description. -/
theorem claimC6_witness :
    (postRewriteDenormalize descC6x).map Route.override = [false, false] :=
  (claimC6 descC6x rfl).2.2.2

/-! ### Claim C10 -/

/-- Claim C10: the wildcard table is present exactly when `i18n.domains`
is set, with one entry per configured domain in input order, whose value
is empty for the domain matching the global default locale and
`/<domain default locale>` otherwise. -/
theorem claimC10 (d : BuildDescription) :
    (d.config.i18n.bind I18nConfig.domains = none → wildcardOf d = none)
    ∧ (∀ i ds, d.config.i18n = some i → i.domains = some ds →
        wildcardOf d = some (wildcardEntries i ds)
        ∧ (wildcardEntries i ds).length = ds.length
        ∧ (wildcardEntries i ds).map WildcardEntry.domain
            = ds.map DomainConfig.domain) := by
  constructor
  · intro h
    unfold wildcardOf
    cases hi : d.config.i18n with
    | none => rfl
    | some i =>
      rw [hi] at h
      simp only [Option.some_bind] at h
      simp [h]
  · intro i ds hi hds
    refine ⟨?_, ?_, ?_⟩
    · simp [wildcardOf, hi, hds]
    · simp [wildcardEntries]
    · simp [wildcardEntries, wildcardEntry, List.map_map]

/-- Claim C10 witness: a two-domain configuration, one matching the
default locale (empty value) and one not (`/fr`). -/
theorem claimC10_witness :
    wildcardOf descC10 = some (wildcardEntries i18nC10 domainsC10) :=
  ((claimC10 descC10).2 i18nC10 domainsC10 rfl rfl).1


/-! ### Claim C5: the rewrite-modification pass -/

/-- The source of a converted rewrite entry. -/
def entrySrc (e : RewriteEntry) : Option String := some e.sourceRegex

/-- The destination of a converted rewrite entry. -/
def entryDest (e : RewriteEntry) : Option String := some e.destination

/-- The source an `afterFiles` rewrite entry ends up with: the rsc-suffix
rewriting applies only when both source and destination are truthy
(non-empty) — the JavaScript falsy guard skips the entry otherwise. -/
def entryAfterSrc (pf sp : Bool) (e : RewriteEntry) : Option String :=
  if e.sourceRegex = "" ∨ e.destination = "" then some e.sourceRegex
  else some (rewriteSrcSuffix e.sourceRegex (rscSuffixOf pf sp))

/-- The destination an `afterFiles` rewrite entry ends up with: the
rsc-suffix insertion applies only when both source and destination are
truthy (non-empty). -/
def entryAfterDest (e : RewriteEntry) : Option String :=
  if e.sourceRegex = "" ∨ e.destination = "" then some e.destination
  else some (insertRscSuffix e.destination)

theorem route_src_ite (c : Prop) [Decidable c] (a b : Route) :
    (if c then a else b).src = if c then a.src else b.src := by
  split <;> rfl

theorem route_dest_ite (c : Prop) [Decidable c] (a b : Route) :
    (if c then a else b).dest = if c then a.dest else b.dest := by
  split <;> rfl

theorem modify_eq_of_some (isAfter pf sp : Bool) (r : Route) (s t : String)
    (hs : r.src = some s) (hd : r.dest = some t) :
    modifyWithRewriteHeaders isAfter pf sp r
      = if s == "" || t == "" then r else modifyBody isAfter pf sp r s t := by
  unfold modifyWithRewriteHeaders
  rw [hs, hd]

/-- The falsy guard is live: an `afterFiles` rewrite with an empty
destination is returned unchanged. -/
theorem modify_skips_falsy :
    modifyWithRewriteHeaders true true true
        { src := some "^/a(?:\\/)?$", dest := some "" }
      = { src := some "^/a(?:\\/)?$", dest := some "" } := by decide

theorem modifyBody_src_dest (isAfter pf sp : Bool) (r : Route) (s t : String) :
    (modifyBody isAfter pf sp r s t).src
      = some (if isAfter then rewriteSrcSuffix s (rscSuffixOf pf sp) else s)
    ∧ (modifyBody isAfter pf sp r s t).dest
      = some (if isAfter then insertRscSuffix t else t) := by
  unfold modifyBody
  refine ⟨?_, ?_⟩ <;>
    (split <;> (split <;> simp_all [route_src_ite, route_dest_ite]))

theorem modify_src_dest (isAfter pf sp : Bool) (r : Route) (s t : String)
    (hs : r.src = some s) (hd : r.dest = some t) :
    (modifyWithRewriteHeaders isAfter pf sp r).src
      = (if s = "" ∨ t = "" then some s
         else some (if isAfter then rewriteSrcSuffix s (rscSuffixOf pf sp) else s))
    ∧ (modifyWithRewriteHeaders isAfter pf sp r).dest
      = (if s = "" ∨ t = "" then some t
         else some (if isAfter then insertRscSuffix t else t)) := by
  rw [modify_eq_of_some isAfter pf sp r s t hs hd]
  by_cases hc : s = "" ∨ t = ""
  · have hb : (s == "" || t == "") = true := by
      rcases hc with h | h <;> simp [h]
    rw [if_pos hb, if_pos hc, if_pos hc]
    exact ⟨hs, hd⟩
  · have hb : (s == "" || t == "") = false := by
      push_neg at hc
      simp [hc.1, hc.2]
    rw [if_neg (by simp [hb]), if_neg hc, if_neg hc]
    exact modifyBody_src_dest isAfter pf sp r s t

theorem map_ext_fun {α β : Type} (f g : α → β) (h : ∀ a, f a = g a) :
    ∀ l : List α, l.map f = l.map g := by
  intro l
  induction l with
  | nil => rfl
  | cons a l ih => simp [h a, ih]

/-- Prefetch flags on, one rewrite per group; the fallback rewrite's source
ends in the canonical optional-trailing-slash suffix. -/
def descC5x : BuildDescription :=
  { config := { cacheComponents := true, clientSegmentCache := true }
    rewritesBeforeFiles := [{ sourceRegex := "^/b(?:\\/)?$", destination := "/bd" }]
    rewritesAfterFiles := [{ sourceRegex := "^/a(?:\\/)?$", destination := "/ad" }]
    rewritesFallback := [{ sourceRegex := "^/f(?:\\/)?$", destination := "/fd" }] }

/-- Claim C5, counterexample: with both prefetch flags set, the fallback
rewrite whose source ends in the canonical optional-trailing-slash suffix
`(?:\/)?$` is NOT rewritten to match a partial-render suffix group — only
`afterFiles` rewrites are (the `isAfterFilesRewrite` flag is passed only for
the afterFiles group, index.ts lines 209–225 / routing.ts line 67). -/
theorem claimC5_counterexample :
    shouldHandlePrefetchRsc descC5x = true
    ∧ (fallbackRoutes descC5x).map Route.src = [some "^/f(?:\\/)?$"]
    ∧ rewriteSrcSuffix "^/f(?:\\/)?$" (rscSuffixOf true true) ≠ "^/f(?:\\/)?$" := by
  refine ⟨rfl, by decide, by decide⟩

/-- Claim C5 (amended): when either prefetch flag is set, only the
`afterFiles` rewrites are modified: each one's source has its trailing
optional-trailing-slash suffix (when present) replaced by a group that
additionally matches the partial-render suffixes (`.rsc`, plus
`.prefetch.rsc` when prefetch-RSC handling is active, plus
`.segments/*.segment.rsc` when segment-prefetch handling is active), and
its destination gains the `$rscsuff` placeholder inserted before any
existing query string (at the end when there is none); the sources and
destinations of `beforeFiles` and `fallback` rewrites are left unchanged
(they only gain rewrite headers).  Matching the JavaScript falsy guard
(`if (!rewrite.src || !rewrite.dest) continue`), an entry whose source or
destination is the empty string is skipped entirely, which
`entryAfterSrc` / `entryAfterDest` encode. -/
theorem claimC5 (d : BuildDescription)
    (h : (shouldHandlePrefetchRsc d || shouldHandleSegmentPrefetches d) = true) :
    (beforeFilesRoutes d).map Route.src = d.rewritesBeforeFiles.map entrySrc
    ∧ (beforeFilesRoutes d).map Route.dest = d.rewritesBeforeFiles.map entryDest
    ∧ (fallbackRoutes d).map Route.src = d.rewritesFallback.map entrySrc
    ∧ (fallbackRoutes d).map Route.dest = d.rewritesFallback.map entryDest
    ∧ (afterFilesRoutes d).map Route.src
        = d.rewritesAfterFiles.map
            (entryAfterSrc (shouldHandlePrefetchRsc d) (shouldHandleSegmentPrefetches d))
    ∧ (afterFilesRoutes d).map Route.dest = d.rewritesAfterFiles.map entryAfterDest := by
  have hb : ∀ e : RewriteEntry,
      Route.src (modifyWithRewriteHeaders false (shouldHandlePrefetchRsc d)
        (shouldHandleSegmentPrefetches d) (beforeFilesRewriteEntry e)) = entrySrc e := by
    intro e
    have hm := (modify_src_dest false (shouldHandlePrefetchRsc d)
      (shouldHandleSegmentPrefetches d) (beforeFilesRewriteEntry e)
      e.sourceRegex e.destination rfl rfl).1
    rw [hm]
    split <;> simp [entrySrc]
  have hb' : ∀ e : RewriteEntry,
      Route.dest (modifyWithRewriteHeaders false (shouldHandlePrefetchRsc d)
        (shouldHandleSegmentPrefetches d) (beforeFilesRewriteEntry e)) = entryDest e := by
    intro e
    have hm := (modify_src_dest false (shouldHandlePrefetchRsc d)
      (shouldHandleSegmentPrefetches d) (beforeFilesRewriteEntry e)
      e.sourceRegex e.destination rfl rfl).2
    rw [hm]
    split <;> simp [entryDest]
  have hf : ∀ e : RewriteEntry,
      Route.src (modifyWithRewriteHeaders false (shouldHandlePrefetchRsc d)
        (shouldHandleSegmentPrefetches d) (normalizeRewriteEntry e)) = entrySrc e := by
    intro e
    have hm := (modify_src_dest false (shouldHandlePrefetchRsc d)
      (shouldHandleSegmentPrefetches d) (normalizeRewriteEntry e)
      e.sourceRegex e.destination rfl rfl).1
    rw [hm]
    split <;> simp [entrySrc]
  have hf' : ∀ e : RewriteEntry,
      Route.dest (modifyWithRewriteHeaders false (shouldHandlePrefetchRsc d)
        (shouldHandleSegmentPrefetches d) (normalizeRewriteEntry e)) = entryDest e := by
    intro e
    have hm := (modify_src_dest false (shouldHandlePrefetchRsc d)
      (shouldHandleSegmentPrefetches d) (normalizeRewriteEntry e)
      e.sourceRegex e.destination rfl rfl).2
    rw [hm]
    split <;> simp [entryDest]
  have ha : ∀ e : RewriteEntry,
      Route.src (modifyWithRewriteHeaders true (shouldHandlePrefetchRsc d)
        (shouldHandleSegmentPrefetches d) (normalizeRewriteEntry e))
        = entryAfterSrc (shouldHandlePrefetchRsc d) (shouldHandleSegmentPrefetches d) e := by
    intro e
    have hm := (modify_src_dest true (shouldHandlePrefetchRsc d)
      (shouldHandleSegmentPrefetches d) (normalizeRewriteEntry e)
      e.sourceRegex e.destination rfl rfl).1
    rw [hm]
    unfold entryAfterSrc
    split <;> simp_all
  have ha' : ∀ e : RewriteEntry,
      Route.dest (modifyWithRewriteHeaders true (shouldHandlePrefetchRsc d)
        (shouldHandleSegmentPrefetches d) (normalizeRewriteEntry e)) = entryAfterDest e := by
    intro e
    have hm := (modify_src_dest true (shouldHandlePrefetchRsc d)
      (shouldHandleSegmentPrefetches d) (normalizeRewriteEntry e)
      e.sourceRegex e.destination rfl rfl).2
    rw [hm]
    unfold entryAfterDest
    split <;> simp_all
  refine ⟨?_, ?_, ?_, ?_, ?_, ?_⟩ <;>
    simp only [beforeFilesRoutes, fallbackRoutes, afterFilesRoutes,
      processedRewrites, h, if_pos, List.map_map] <;>
    first
      | exact map_ext_fun _ _ hb _
      | exact map_ext_fun _ _ hb' _
      | exact map_ext_fun _ _ hf _
      | exact map_ext_fun _ _ hf' _
      | exact map_ext_fun _ _ ha _
      | exact map_ext_fun _ _ ha' _

/-- Claim C5 witness: the amended theorem at the concrete description;
the afterFiles source gained the suffix group while the fallback source
did not. -/
theorem claimC5_witness :
    (afterFilesRoutes descC5x).map Route.src
      = descC5x.rewritesAfterFiles.map (entryAfterSrc true true) :=
  ((claimC5 descC5x rfl).2.2.2.2.1)

/-! ### Claim C8: the synthetic `_next/data` 404 guard -/

/-- A dynamic-route entry whose source regex mentions `_next/data`. -/
def dataEntry (e : DynamicRouteEntry) : Bool :=
  containsSubstr e.sourceRegex "_next/data"

/-- A dynamic-route entry whose source regex does not mention `_next/data`. -/
def nonDataEntry (e : DynamicRouteEntry) : Bool := !dataEntry e

/-- Whether a route equals the synthetic `_next/data` 404 guard. -/
def isNextData404 (bp : String) (r : Route) : Bool :=
  decide (r = nextData404Route bp)

theorem dynRoute_ne_guard (bp : String) (e : DynamicRouteEntry) :
    isNextData404 bp (dynRoute e) = false := by
  simp only [isNextData404, decide_eq_false_iff_not]
  intro h
  have := congrArg Route.status h
  simp [dynRoute, nextData404Route] at this

theorem buildDynamicRoutesAux_added (g : Bool) (bp : String) :
    ∀ l : List DynamicRouteEntry, buildDynamicRoutesAux g bp l true = l.map dynRoute := by
  intro l
  induction l with
  | nil => rfl
  | cons e l ih => simp [buildDynamicRoutesAux, ih]

theorem buildDynamicRoutesAux_no_guard (bp : String) :
    ∀ (l : List DynamicRouteEntry) (b : Bool),
      buildDynamicRoutesAux false bp l b = l.map dynRoute := by
  intro l
  induction l with
  | nil => intro b; rfl
  | cons e l ih => intro b; simp [buildDynamicRoutesAux, ih]

theorem buildDynamicRoutesAux_guard_split (bp : String) :
    ∀ l : List DynamicRouteEntry, l.any nonDataEntry = true →
      buildDynamicRoutesAux true bp l false
        = (l.takeWhile dataEntry).map dynRoute
          ++ nextData404Route bp :: (l.dropWhile dataEntry).map dynRoute := by
  intro l
  induction l with
  | nil => intro h; simp at h
  | cons e l ih =>
    intro h
    by_cases hd : dataEntry e = true
    · have hne : nonDataEntry e = false := by simp [nonDataEntry, hd]
      have hl : l.any nonDataEntry = true := by
        rcases List.any_eq_true.mp h with ⟨x, hx, hpx⟩
        rcases List.mem_cons.mp hx with rfl | hx
        · simp [hne] at hpx
        · exact List.any_eq_true.mpr ⟨x, hx, hpx⟩
      have hc : containsSubstr e.sourceRegex "_next/data" = true := by
        simpa [dataEntry] using hd
      simp only [buildDynamicRoutesAux]
      rw [if_neg (by simp [hc])]
      simp [List.takeWhile_cons, List.dropWhile_cons, dataEntry, hc, ih hl]
    · have hc : containsSubstr e.sourceRegex "_next/data" = false := by
        simpa [dataEntry] using hd
      simp only [buildDynamicRoutesAux]
      rw [if_pos (by simp [hc])]
      simp [List.takeWhile_cons, List.dropWhile_cons, dataEntry, hc,
        buildDynamicRoutesAux_added]

theorem countP_map_false (p : Route → Bool) (f : DynamicRouteEntry → Route)
    (h : ∀ a, p (f a) = false) :
    ∀ l : List DynamicRouteEntry, List.countP p (l.map f) = 0 := by
  intro l
  induction l with
  | nil => rfl
  | cons a l ih => simp [List.countP_cons, h a, ih]

/-- Pages-style tree, no middleware, one non-data dynamic route. -/
def descC8x : BuildDescription :=
  { hasPagesDir := true
    dynamicRoutes := [{ sourceRegex := "^/posts/([^/]+?)(?:/)?$",
                        destination := "/posts/[slug]" }] }

/-- Claim C8: with pages-dir routes, no middleware and at least one
dynamic route whose source does not mention `_next/data`, the dynamic
route list is exactly the converted entries with the synthetic guard
inserted immediately before the first such entry, and the guard occurs
exactly once; with middleware present the guard never appears; the
dynamic-routes fragment occurs verbatim inside the compiled route list. -/
theorem claimC8 (d : BuildDescription) :
    (d.hasPagesDir = true → hasMiddleware d = false →
      d.dynamicRoutes.any nonDataEntry = true →
      dynamicRoutesBlock d
        = (d.dynamicRoutes.takeWhile dataEntry).map dynRoute
          ++ nextData404Route d.config.basePath
            :: (d.dynamicRoutes.dropWhile dataEntry).map dynRoute
      ∧ List.countP (isNextData404 d.config.basePath) (dynamicRoutesBlock d) = 1)
    ∧ (hasMiddleware d = true →
        dynamicRoutesBlock d = d.dynamicRoutes.map dynRoute
        ∧ List.countP (isNextData404 d.config.basePath) (dynamicRoutesBlock d) = 0)
    ∧ (∃ pre post, vercelRoutes d = pre ++ dynamicRoutesBlock d ++ post) := by
  refine ⟨?_, ?_, ?_⟩
  · intro hp hm hany
    have hg : (d.hasPagesDir && !hasMiddleware d) = true := by rw [hp, hm]; rfl
    have hsplit := buildDynamicRoutesAux_guard_split d.config.basePath d.dynamicRoutes hany
    have hblock : dynamicRoutesBlock d
        = (d.dynamicRoutes.takeWhile dataEntry).map dynRoute
          ++ nextData404Route d.config.basePath
            :: (d.dynamicRoutes.dropWhile dataEntry).map dynRoute := by
      unfold dynamicRoutesBlock
      rw [hg, hsplit]
    refine ⟨hblock, ?_⟩
    rw [hblock]
    rw [List.countP_append, List.countP_cons]
    rw [countP_map_false _ _ (dynRoute_ne_guard d.config.basePath),
        countP_map_false _ _ (dynRoute_ne_guard d.config.basePath)]
    simp [isNextData404]
  · intro hm
    have hg : (d.hasPagesDir && !hasMiddleware d) = false := by rw [hm]; simp
    have hblock : dynamicRoutesBlock d = d.dynamicRoutes.map dynRoute := by
      unfold dynamicRoutesBlock
      rw [hg, buildDynamicRoutesAux_no_guard]
    exact ⟨hblock, by
      rw [hblock, countP_map_false _ _ (dynRoute_ne_guard d.config.basePath)]⟩
  · refine ⟨priorityRedirectRoutes d ++ preRedirectNormalize d ++ i18nBlock d
      ++ headerRoutes d ++ nonPriorityRedirectRoutes d ++ middlewareRoutesOf d
      ++ beforeFilesRoutes d ++ literal404Block d ++ literal500Block d
      ++ preFilesystemDenormalize d ++ appRscBlock d ++ [marker "filesystem"]
      ++ basePathImageBlock d ++ postFilesystemNormalize d
      ++ noMiddlewareNextDataBlock d ++ indexRscBlock d ++ afterFilesRoutes d
      ++ rscRepairBlock d ++ [marker "resource"] ++ fallbackRoutes d
      ++ catchAll404Block d ++ [marker "miss"] ++ staticNotFoundBlock d
      ++ localeStripBlock d ++ segmentFallbackBlock d ++ [marker "rewrite"]
      ++ postRewriteDenormalize d,
      middlewareDataBlock d ++ [marker "hit"] ++ cachingBlock d
      ++ xMatchedPathBlock d ++ [marker "error"] ++ err404Block d ++ err500Block d, ?_⟩
    simp [vercelRoutes, List.append_assoc]

/-- Claim C8 witness: the theorem at a concrete pages-style description —
the `_next/data` 404 guard appears exactly once. -/
theorem claimC8_witness :
    List.countP (isNextData404 descC8x.config.basePath) (dynamicRoutesBlock descC8x) = 1 :=
  ((claimC8 descC8x).1 rfl rfl (by decide)).2

/-! ### Claim C9: missing prerender parent aborts the build -/

/-- Whether an `Except` computation succeeded. -/
def exceptIsOk {ε α : Type} : Except ε α → Bool
  | .ok _ => true
  | .error _ => false

theorem foldlM_addPrerender_ok (nm : List (String × String)) (bp : String) :
    ∀ (l : List PrerenderOutput) (acc : List (String × List String)),
      exceptIsOk (List.foldlM (addPrerender nm bp) acc l) = true
        ↔ ∀ p ∈ l,
            (prerenderNeedsParent p && (lookupAssoc nm p.parentOutputId).isNone) = false := by
  intro l
  induction l with
  | nil => intro acc; simp [List.foldlM, exceptIsOk, pure, Except.pure]
  | cons p l ih =>
    intro acc
    rw [List.foldlM_cons]
    by_cases hn : prerenderNeedsParent p = true
    · cases hl : lookupAssoc nm p.parentOutputId with
      | none =>
        simp only [addPrerender, hn, hl, if_pos]
        simp [Bind.bind, Except.bind, exceptIsOk, hn, hl]
      | some v =>
        simp only [addPrerender, hn, hl, if_pos]
        simp only [Bind.bind, Except.bind]
        rw [ih]
        simp [hn, hl]
    · have hn' : prerenderNeedsParent p = false := by simpa using hn
      simp only [addPrerender, hn']
      simp only [Bool.false_eq_true, if_false, Bind.bind, Except.bind]
      rw [ih]
      simp [hn']

/-- One prerender with `fallback: false` whose parent output is present. -/
def descC9x : BuildDescription :=
  { prerenders := [{ pathname := "/posts/a", parentOutputId := "id1",
                     parentFallbackMode := some false }]
    nodeOutputs := [("id1", "/posts/[slug]")] }

/-- Claim C9: the route-compiling pipeline succeeds exactly when every
prerender that the `prerenderFallbackFalseMap` loop must resolve
(`parentFallbackMode === false`, pathname not a `_next/data` or `.rsc`
variant) has its parent output in the node-output map — a missing parent
aborts with the invariant-violation error before any route table exists —
and on success the complete route table and wildcard table are produced. -/
theorem claimC9 (d : BuildDescription) :
    (exceptIsOk (compileBuild d) = true ↔ ∀ p ∈ d.prerenders, badPrerender d p = false)
    ∧ (∀ r, compileBuild d = .ok r →
        r.routes = vercelRoutes d ∧ r.wildcard = wildcardOf d) := by
  have h := foldlM_addPrerender_ok d.nodeOutputs d.config.basePath d.prerenders []
  constructor
  · unfold compileBuild
    cases hb : buildPrerenderFallbackFalseMap d with
    | error e =>
      unfold buildPrerenderFallbackFalseMap at hb
      rw [hb] at h
      simp only [exceptIsOk] at h ⊢
      simp only [badPrerender]
      exact h
    | ok m =>
      unfold buildPrerenderFallbackFalseMap at hb
      rw [hb] at h
      simp only [exceptIsOk] at h ⊢
      simp only [badPrerender]
      exact h
  · intro r hr
    unfold compileBuild at hr
    cases hb : buildPrerenderFallbackFalseMap d with
    | error e => rw [hb] at hr; exact absurd hr (by simp)
    | ok m =>
      rw [hb] at hr
      have := Except.ok.inj hr
      rw [← this]
      exact ⟨rfl, rfl⟩

/-- Claim C9 witness: the theorem at a description whose only
fallback-false prerender has its parent present — compilation succeeds. -/
theorem claimC9_witness : exceptIsOk (compileBuild descC9x) = true :=
  (claimC9 descC9x).1.mpr (by decide)


/-! ### Fragment lemmas: every fragment consists of plain rules
(`handle = none`), and all except the i18n block have `locale = none`.
These feed the phase-marker, i18n-all-or-nothing and error-section
theorems. -/

/-- Plainness of a route: not a phase marker. -/
def RoutePlain (r : Route) : Prop := r.handle = none ∧ r.locale = none

theorem mem_map_plain {α : Type} (f : α → Route)
    (hf : ∀ a, RoutePlain (f a)) :
    ∀ (l : List α), ∀ r ∈ l.map f, RoutePlain r := by
  intro l r hr
  rcases List.mem_map.mp hr with ⟨a, -, rfl⟩
  exact hf a

theorem priorityRedirectRoutes_plain (d : BuildDescription) :
    ∀ r ∈ priorityRedirectRoutes d, RoutePlain r := by
  intro r hr
  unfold priorityRedirectRoutes at hr
  exact mem_map_plain _ (fun e => ⟨rfl, rfl⟩) _ r hr

theorem nonPriorityRedirectRoutes_plain (d : BuildDescription) :
    ∀ r ∈ nonPriorityRedirectRoutes d, RoutePlain r := by
  intro r hr
  unfold nonPriorityRedirectRoutes at hr
  exact mem_map_plain _ (fun e => ⟨rfl, rfl⟩) _ r hr

theorem headerRoutes_plain (d : BuildDescription) :
    ∀ r ∈ headerRoutes d, RoutePlain r := by
  intro r hr
  unfold headerRoutes at hr
  exact mem_map_plain _ (fun e => ⟨rfl, rfl⟩) _ r hr

theorem middlewareRoutesOf_plain (d : BuildDescription) :
    ∀ r ∈ middlewareRoutesOf d, RoutePlain r := by
  intro r hr
  unfold middlewareRoutesOf at hr
  split at hr
  · simp at hr
  · exact mem_map_plain _ (fun m => ⟨rfl, rfl⟩) _ r hr

theorem normalizeNextDataRoutes_plain (cfg : Config) (b : String) (sh ov : Bool) :
    ∀ r ∈ normalizeNextDataRoutes cfg b sh ov, RoutePlain r := by
  intro r hr
  unfold normalizeNextDataRoutes at hr
  split at hr
  · simp at hr
  · simp at hr
    rcases hr with rfl | rfl | rfl <;> exact ⟨rfl, rfl⟩

theorem denormalizeNextDataRoutes_plain (cfg : Config) (b : String) (sh ov : Bool) :
    ∀ r ∈ denormalizeNextDataRoutes cfg b sh ov, RoutePlain r := by
  intro r hr
  unfold denormalizeNextDataRoutes at hr
  split at hr
  · simp at hr
  · simp at hr
    rcases hr with rfl | rfl <;> exact ⟨rfl, rfl⟩

theorem mem_single {r a : Route} (h : r ∈ [a]) : r = a := by simpa using h

theorem mem_pair {r a b : Route} (h : r ∈ [a, b]) : r = a ∨ r = b := by
  rcases List.mem_cons.mp h with h | h
  · exact Or.inl h
  · exact Or.inr (mem_single h)

theorem i18nBlock_handle (d : BuildDescription) :
    ∀ r ∈ i18nBlock d, r.handle = none := by
  intro r hr
  unfold i18nBlock at hr
  split at hr
  · simp at hr
  · rcases List.mem_append.mp hr with hr | hr
    · rcases List.mem_append.mp hr with hr | hr
      · rcases List.mem_append.mp hr with hr | hr
        · rcases mem_pair hr with rfl | rfl <;> rfl
        · revert hr
          split
          · intro hr; rw [mem_single hr]
          · intro hr; simp at hr
      · revert hr
        split
        · intro hr; rw [mem_single hr]
        · intro hr; simp at hr
    · rcases mem_pair hr with rfl | rfl <;> rfl

theorem route_handle_ite (c : Prop) [Decidable c] (a b : Route) :
    (if c then a else b).handle = if c then a.handle else b.handle := by
  split <;> rfl

theorem route_locale_ite (c : Prop) [Decidable c] (a b : Route) :
    (if c then a else b).locale = if c then a.locale else b.locale := by
  split <;> rfl

theorem modifyBody_handle_locale (isAfter pf sp : Bool) (r : Route) (s t : String) :
    (modifyBody isAfter pf sp r s t).handle = r.handle
    ∧ (modifyBody isAfter pf sp r s t).locale = r.locale := by
  unfold modifyBody
  refine ⟨?_, ?_⟩ <;>
    (split <;> (split <;> simp_all [route_handle_ite, route_locale_ite]))

theorem modify_handle_locale (isAfter pf sp : Bool) (r : Route) :
    (modifyWithRewriteHeaders isAfter pf sp r).handle = r.handle
    ∧ (modifyWithRewriteHeaders isAfter pf sp r).locale = r.locale := by
  unfold modifyWithRewriteHeaders
  refine ⟨?_, ?_⟩ <;>
  · split
    · split
      · rfl
      · first
          | exact (modifyBody_handle_locale isAfter pf sp r _ _).1
          | exact (modifyBody_handle_locale isAfter pf sp r _ _).2
    · rfl

theorem processedRewrites_eq (d : BuildDescription) :
    processedRewrites d =
      if (shouldHandlePrefetchRsc d || shouldHandleSegmentPrefetches d) = true then
        ((d.rewritesBeforeFiles.map beforeFilesRewriteEntry).map
            (modifyWithRewriteHeaders false (shouldHandlePrefetchRsc d)
              (shouldHandleSegmentPrefetches d)),
         (d.rewritesAfterFiles.map normalizeRewriteEntry).map
            (modifyWithRewriteHeaders true (shouldHandlePrefetchRsc d)
              (shouldHandleSegmentPrefetches d)),
         (d.rewritesFallback.map normalizeRewriteEntry).map
            (modifyWithRewriteHeaders false (shouldHandlePrefetchRsc d)
              (shouldHandleSegmentPrefetches d)))
      else (d.rewritesBeforeFiles.map beforeFilesRewriteEntry,
            d.rewritesAfterFiles.map normalizeRewriteEntry,
            d.rewritesFallback.map normalizeRewriteEntry) := rfl

theorem beforeFilesRoutes_plain (d : BuildDescription) :
    ∀ r ∈ beforeFilesRoutes d, RoutePlain r := by
  intro r hr
  unfold beforeFilesRoutes at hr
  rw [processedRewrites_eq] at hr
  by_cases hc : (shouldHandlePrefetchRsc d || shouldHandleSegmentPrefetches d) = true
  · rw [if_pos hc] at hr
    rcases List.mem_map.mp hr with ⟨x, hx, rfl⟩
    rcases List.mem_map.mp hx with ⟨e, -, rfl⟩
    have h := modify_handle_locale false (shouldHandlePrefetchRsc d)
      (shouldHandleSegmentPrefetches d) (beforeFilesRewriteEntry e)
    exact ⟨h.1, h.2⟩
  · rw [if_neg hc] at hr
    exact mem_map_plain _ (fun e => ⟨rfl, rfl⟩) _ r hr

theorem afterFilesRoutes_plain (d : BuildDescription) :
    ∀ r ∈ afterFilesRoutes d, RoutePlain r := by
  intro r hr
  unfold afterFilesRoutes at hr
  rw [processedRewrites_eq] at hr
  by_cases hc : (shouldHandlePrefetchRsc d || shouldHandleSegmentPrefetches d) = true
  · rw [if_pos hc] at hr
    rcases List.mem_map.mp hr with ⟨x, hx, rfl⟩
    rcases List.mem_map.mp hx with ⟨e, -, rfl⟩
    have h := modify_handle_locale true (shouldHandlePrefetchRsc d)
      (shouldHandleSegmentPrefetches d) (normalizeRewriteEntry e)
    exact ⟨h.1, h.2⟩
  · rw [if_neg hc] at hr
    exact mem_map_plain _ (fun e => ⟨rfl, rfl⟩) _ r hr

theorem fallbackRoutes_plain (d : BuildDescription) :
    ∀ r ∈ fallbackRoutes d, RoutePlain r := by
  intro r hr
  unfold fallbackRoutes at hr
  rw [processedRewrites_eq] at hr
  by_cases hc : (shouldHandlePrefetchRsc d || shouldHandleSegmentPrefetches d) = true
  · rw [if_pos hc] at hr
    rcases List.mem_map.mp hr with ⟨x, hx, rfl⟩
    rcases List.mem_map.mp hx with ⟨e, -, rfl⟩
    have h := modify_handle_locale false (shouldHandlePrefetchRsc d)
      (shouldHandleSegmentPrefetches d) (normalizeRewriteEntry e)
    exact ⟨h.1, h.2⟩
  · rw [if_neg hc] at hr
    exact mem_map_plain _ (fun e => ⟨rfl, rfl⟩) _ r hr

theorem literal404Block_plain (d : BuildDescription) :
    ∀ r ∈ literal404Block d, RoutePlain r := by
  intro r hr
  unfold literal404Block at hr
  split at hr <;> (rw [mem_single hr]; exact ⟨rfl, rfl⟩)

theorem literal500Block_plain (d : BuildDescription) :
    ∀ r ∈ literal500Block d, RoutePlain r := by
  intro r hr
  unfold literal500Block at hr
  split at hr <;> (rw [mem_single hr]; exact ⟨rfl, rfl⟩)

theorem appRscBlock_plain (d : BuildDescription) :
    ∀ r ∈ appRscBlock d, RoutePlain r := by
  intro r hr
  unfold appRscBlock at hr
  split at hr
  · rcases mem_pair hr with rfl | rfl <;> exact ⟨rfl, rfl⟩
  · simp at hr

theorem basePathImageBlock_plain (d : BuildDescription) :
    ∀ r ∈ basePathImageBlock d, RoutePlain r := by
  intro r hr
  unfold basePathImageBlock at hr
  split at hr
  · rw [mem_single hr]; exact ⟨rfl, rfl⟩
  · simp at hr

theorem noMiddlewareNextDataBlock_plain (d : BuildDescription) :
    ∀ r ∈ noMiddlewareNextDataBlock d, RoutePlain r := by
  intro r hr
  unfold noMiddlewareNextDataBlock at hr
  split at hr
  · rw [mem_single hr]; exact ⟨rfl, rfl⟩
  · simp at hr

theorem indexRscBlock_plain (d : BuildDescription) :
    ∀ r ∈ indexRscBlock d, RoutePlain r := by
  intro r hr
  unfold indexRscBlock at hr
  split at hr
  · rw [mem_single hr]; exact ⟨rfl, rfl⟩
  · simp at hr

theorem rscRepairBlock_plain (d : BuildDescription) :
    ∀ r ∈ rscRepairBlock d, RoutePlain r := by
  intro r hr
  unfold rscRepairBlock at hr
  split at hr
  · rcases mem_pair hr with rfl | rfl <;> exact ⟨rfl, rfl⟩
  · simp at hr

theorem catchAll404Block_plain (d : BuildDescription) :
    ∀ r ∈ catchAll404Block d, RoutePlain r := by
  intro r hr
  rw [mem_single hr]; exact ⟨rfl, rfl⟩

theorem staticNotFoundBlock_plain (d : BuildDescription) :
    ∀ r ∈ staticNotFoundBlock d, RoutePlain r := by
  intro r hr
  rw [mem_single hr]; exact ⟨rfl, rfl⟩

theorem localeStripBlock_plain (d : BuildDescription) :
    ∀ r ∈ localeStripBlock d, RoutePlain r := by
  intro r hr
  unfold localeStripBlock at hr
  split at hr
  · simp at hr
  · rcases List.mem_append.mp hr with hr | hr
    · revert hr
      split
      · intro hr
        rcases mem_pair hr with rfl | rfl <;> exact ⟨rfl, rfl⟩
      · intro hr; simp at hr
    · rcases mem_pair hr with rfl | rfl <;> exact ⟨rfl, rfl⟩

theorem segmentFallbackBlock_plain (d : BuildDescription) :
    ∀ r ∈ segmentFallbackBlock d, RoutePlain r := by
  intro r hr
  unfold segmentFallbackBlock at hr
  split at hr
  · rw [mem_single hr]; exact ⟨rfl, rfl⟩
  · simp at hr

theorem middlewareDataBlock_plain (d : BuildDescription) :
    ∀ r ∈ middlewareDataBlock d, RoutePlain r := by
  intro r hr
  unfold middlewareDataBlock at hr
  split at hr
  · rcases mem_pair hr with rfl | rfl <;> exact ⟨rfl, rfl⟩
  · simp at hr

theorem cachingBlock_plain (d : BuildDescription) :
    ∀ r ∈ cachingBlock d, RoutePlain r := by
  intro r hr
  rw [mem_single hr]; exact ⟨rfl, rfl⟩

theorem xMatchedPathBlock_plain (d : BuildDescription) :
    ∀ r ∈ xMatchedPathBlock d, RoutePlain r := by
  intro r hr
  rcases mem_pair hr with rfl | rfl <;> exact ⟨rfl, rfl⟩

theorem err404Block_plain (d : BuildDescription) :
    ∀ r ∈ err404Block d, RoutePlain r := by
  intro r hr
  unfold err404Block at hr
  split at hr
  · rcases mem_pair hr with rfl | rfl <;> exact ⟨rfl, rfl⟩
  · rw [mem_single hr]; exact ⟨rfl, rfl⟩

theorem err500Block_plain (d : BuildDescription) :
    ∀ r ∈ err500Block d, RoutePlain r := by
  intro r hr
  unfold err500Block at hr
  split at hr
  · split at hr
    · rcases mem_pair hr with rfl | rfl <;> exact ⟨rfl, rfl⟩
    · rw [mem_single hr]; exact ⟨rfl, rfl⟩
  · rcases hi : d.config.i18n with _ | i <;> rw [hi] at hr <;>
      (rw [mem_single hr]; exact ⟨rfl, rfl⟩)

theorem buildDynamicRoutesAux_plain (g : Bool) (bp : String) :
    ∀ (l : List DynamicRouteEntry) (b : Bool),
      ∀ r ∈ buildDynamicRoutesAux g bp l b, RoutePlain r := by
  intro l
  induction l with
  | nil => intro b r hr; simp [buildDynamicRoutesAux] at hr
  | cons e l ih =>
    intro b r hr
    unfold buildDynamicRoutesAux at hr
    split at hr
    · rcases List.mem_cons.mp hr with rfl | hr
      · exact ⟨rfl, rfl⟩
      · rcases List.mem_cons.mp hr with rfl | hr
        · exact ⟨rfl, rfl⟩
        · exact ih true r hr
    · rcases List.mem_cons.mp hr with rfl | hr
      · exact ⟨rfl, rfl⟩
      · exact ih b r hr

theorem dynamicRoutesBlock_plain (d : BuildDescription) :
    ∀ r ∈ dynamicRoutesBlock d, RoutePlain r := by
  intro r hr
  exact buildDynamicRoutesAux_plain _ _ _ _ r hr

/-! ### Claim C1: the phase markers -/

theorem fm_nil {l : List Route} (h : ∀ r ∈ l, r.handle = none) :
    l.filterMap Route.handle = [] := by
  induction l with
  | nil => rfl
  | cons r l ih =>
    rw [List.filterMap_cons, h r (List.mem_cons_self r l)]
    exact ih (fun x hx => h x (List.mem_cons_of_mem r hx))

/-- The default build description (everything empty / disabled). -/
def descC1x : BuildDescription := {}

/-- Claim C1, counterexample: the compiled route list's marker sequence is
`filesystem, resource, miss, rewrite, hit, error` — the `miss` marker
(index.ts line 653) precedes the `rewrite` marker (line 743) — not the
claimed `filesystem, resource, rewrite, miss, hit, error`. -/
theorem claimC1_counterexample :
    (vercelRoutes descC1x).filterMap Route.handle
        = ["filesystem", "resource", "miss", "rewrite", "hit", "error"]
    ∧ (vercelRoutes descC1x).filterMap Route.handle
        ≠ ["filesystem", "resource", "rewrite", "miss", "hit", "error"] := by
  refine ⟨by decide, by decide⟩

/-- Claim C1 (amended): for every build description, the six phase markers
each occur exactly once and in the fixed order
`filesystem, resource, miss, rewrite, hit, error` (i.e. with `miss`
before `rewrite`, unlike the claimed order). -/
theorem claimC1 (d : BuildDescription) :
    (vercelRoutes d).filterMap Route.handle
      = ["filesystem", "resource", "miss", "rewrite", "hit", "error"] := by
  have h01 := fm_nil (fun r hr => (priorityRedirectRoutes_plain d r hr).1)
  have h02 := fm_nil (fun r hr =>
    (normalizeNextDataRoutes_plain d.config d.buildId
      (shouldHandleMiddlewareDataResolving d) true r hr).1)
  have h03 := fm_nil (i18nBlock_handle d)
  have h04 := fm_nil (fun r hr => (headerRoutes_plain d r hr).1)
  have h05 := fm_nil (fun r hr => (nonPriorityRedirectRoutes_plain d r hr).1)
  have h06 := fm_nil (fun r hr => (middlewareRoutesOf_plain d r hr).1)
  have h07 := fm_nil (fun r hr => (beforeFilesRoutes_plain d r hr).1)
  have h08 := fm_nil (fun r hr => (literal404Block_plain d r hr).1)
  have h09 := fm_nil (fun r hr => (literal500Block_plain d r hr).1)
  have h10 := fm_nil (fun r hr =>
    (denormalizeNextDataRoutes_plain d.config d.buildId
      (shouldHandleMiddlewareDataResolving d) true r hr).1)
  have h11 := fm_nil (fun r hr => (appRscBlock_plain d r hr).1)
  have h12 := fm_nil (fun r hr => (basePathImageBlock_plain d r hr).1)
  have h13 := fm_nil (fun r hr =>
    (normalizeNextDataRoutes_plain d.config d.buildId
      (shouldHandleMiddlewareDataResolving d) false r hr).1)
  have h14 := fm_nil (fun r hr => (noMiddlewareNextDataBlock_plain d r hr).1)
  have h15 := fm_nil (fun r hr => (indexRscBlock_plain d r hr).1)
  have h16 := fm_nil (fun r hr => (afterFilesRoutes_plain d r hr).1)
  have h17 := fm_nil (fun r hr => (rscRepairBlock_plain d r hr).1)
  have h18 := fm_nil (fun r hr => (fallbackRoutes_plain d r hr).1)
  have h19 := fm_nil (fun r hr => (catchAll404Block_plain d r hr).1)
  have h20 := fm_nil (fun r hr => (staticNotFoundBlock_plain d r hr).1)
  have h21 := fm_nil (fun r hr => (localeStripBlock_plain d r hr).1)
  have h22 := fm_nil (fun r hr => (segmentFallbackBlock_plain d r hr).1)
  have h23 := fm_nil (fun r hr =>
    (denormalizeNextDataRoutes_plain d.config d.buildId
      (shouldHandleMiddlewareDataResolving d) false r hr).1)
  have h24 := fm_nil (fun r hr => (dynamicRoutesBlock_plain d r hr).1)
  have h25 := fm_nil (fun r hr => (middlewareDataBlock_plain d r hr).1)
  have h26 := fm_nil (fun r hr => (cachingBlock_plain d r hr).1)
  have h27 := fm_nil (fun r hr => (xMatchedPathBlock_plain d r hr).1)
  have h28 := fm_nil (fun r hr => (err404Block_plain d r hr).1)
  have h29 := fm_nil (fun r hr => (err500Block_plain d r hr).1)
  simp only [vercelRoutes, preRedirectNormalize, preFilesystemDenormalize,
    postFilesystemNormalize, postRewriteDenormalize, List.filterMap_append,
    h01, h02, h03, h04, h05, h06, h07, h08, h09, h10, h11, h12, h13, h14,
    h15, h16, h17, h18, h19, h20, h21, h22, h23, h24, h25, h26, h27, h28, h29,
    List.nil_append, List.append_nil]
  rfl

/-! ### Claims C2 and C7: membership machinery over the full route list -/

theorem forall_mem_append_of {p : Route → Prop} {a b : List Route}
    (ha : ∀ r ∈ a, p r) (hb : ∀ r ∈ b, p r) : ∀ r ∈ a ++ b, p r := by
  intro r hr
  rcases List.mem_append.mp hr with h | h
  · exact ha r h
  · exact hb r h

/-- Every route of the compiled list under `i18n = none` has no `locale`
field. -/
theorem vercelRoutes_locale_none (d : BuildDescription)
    (hnone : d.config.i18n = none) :
    ∀ r ∈ vercelRoutes d, r.locale = none := by
  unfold vercelRoutes
  exact
(forall_mem_append_of
(forall_mem_append_of
(forall_mem_append_of
(forall_mem_append_of
(forall_mem_append_of
(forall_mem_append_of
(forall_mem_append_of
(forall_mem_append_of
(forall_mem_append_of
(forall_mem_append_of
(forall_mem_append_of
(forall_mem_append_of
(forall_mem_append_of
(forall_mem_append_of
(forall_mem_append_of
(forall_mem_append_of
(forall_mem_append_of
(forall_mem_append_of
(forall_mem_append_of
(forall_mem_append_of
(forall_mem_append_of
(forall_mem_append_of
(forall_mem_append_of
(forall_mem_append_of
(forall_mem_append_of
(forall_mem_append_of
(forall_mem_append_of
(forall_mem_append_of
(forall_mem_append_of
(forall_mem_append_of
(forall_mem_append_of
(forall_mem_append_of
(forall_mem_append_of
(forall_mem_append_of
(fun r hr => (priorityRedirectRoutes_plain d r hr).2)
(fun r hr => (normalizeNextDataRoutes_plain d.config d.buildId (shouldHandleMiddlewareDataResolving d) true r hr).2))
(fun r hr => absurd hr (by simp [i18nBlock, hnone])))
(fun r hr => (headerRoutes_plain d r hr).2))
(fun r hr => (nonPriorityRedirectRoutes_plain d r hr).2))
(fun r hr => (middlewareRoutesOf_plain d r hr).2))
(fun r hr => (beforeFilesRoutes_plain d r hr).2))
(fun r hr => (literal404Block_plain d r hr).2))
(fun r hr => (literal500Block_plain d r hr).2))
(fun r hr => (denormalizeNextDataRoutes_plain d.config d.buildId (shouldHandleMiddlewareDataResolving d) true r hr).2))
(fun r hr => (appRscBlock_plain d r hr).2))
(fun r hr => by rw [mem_single hr]; rfl))
(fun r hr => (basePathImageBlock_plain d r hr).2))
(fun r hr => (normalizeNextDataRoutes_plain d.config d.buildId (shouldHandleMiddlewareDataResolving d) false r hr).2))
(fun r hr => (noMiddlewareNextDataBlock_plain d r hr).2))
(fun r hr => (indexRscBlock_plain d r hr).2))
(fun r hr => (afterFilesRoutes_plain d r hr).2))
(fun r hr => (rscRepairBlock_plain d r hr).2))
(fun r hr => by rw [mem_single hr]; rfl))
(fun r hr => (fallbackRoutes_plain d r hr).2))
(fun r hr => (catchAll404Block_plain d r hr).2))
(fun r hr => by rw [mem_single hr]; rfl))
(fun r hr => (staticNotFoundBlock_plain d r hr).2))
(fun r hr => (localeStripBlock_plain d r hr).2))
(fun r hr => (segmentFallbackBlock_plain d r hr).2))
(fun r hr => by rw [mem_single hr]; rfl))
(fun r hr => (denormalizeNextDataRoutes_plain d.config d.buildId (shouldHandleMiddlewareDataResolving d) false r hr).2))
(fun r hr => (dynamicRoutesBlock_plain d r hr).2))
(fun r hr => (middlewareDataBlock_plain d r hr).2))
(fun r hr => by rw [mem_single hr]; rfl))
(fun r hr => (cachingBlock_plain d r hr).2))
(fun r hr => (xMatchedPathBlock_plain d r hr).2))
(fun r hr => by rw [mem_single hr]; rfl))
(fun r hr => (err404Block_plain d r hr).2))
(fun r hr => (err500Block_plain d r hr).2))

/-- The error phase marker. -/
def isErrorMarker (r : Route) : Bool := r.handle == some "error"

/-- The routes after the `error` phase marker. -/
def errorSection (rs : List Route) : List Route :=
  (rs.dropWhile (fun r => !isErrorMarker r)).tail

theorem noerr_of_handle_none {r : Route} (h : r.handle = none) :
    (!isErrorMarker r) = true := by
  simp [isErrorMarker, h]

/-- Everything the compiler emits before the `error` marker. -/
def preErrorRoutes (d : BuildDescription) : List Route :=
  priorityRedirectRoutes d
  ++ preRedirectNormalize d
  ++ i18nBlock d
  ++ headerRoutes d
  ++ nonPriorityRedirectRoutes d
  ++ middlewareRoutesOf d
  ++ beforeFilesRoutes d
  ++ literal404Block d
  ++ literal500Block d
  ++ preFilesystemDenormalize d
  ++ appRscBlock d
  ++ [marker "filesystem"]
  ++ basePathImageBlock d
  ++ postFilesystemNormalize d
  ++ noMiddlewareNextDataBlock d
  ++ indexRscBlock d
  ++ afterFilesRoutes d
  ++ rscRepairBlock d
  ++ [marker "resource"]
  ++ fallbackRoutes d
  ++ catchAll404Block d
  ++ [marker "miss"]
  ++ staticNotFoundBlock d
  ++ localeStripBlock d
  ++ segmentFallbackBlock d
  ++ [marker "rewrite"]
  ++ postRewriteDenormalize d
  ++ dynamicRoutesBlock d
  ++ middlewareDataBlock d
  ++ [marker "hit"]
  ++ cachingBlock d
  ++ xMatchedPathBlock d

theorem vercelRoutes_eq_preError (d : BuildDescription) :
    vercelRoutes d
      = preErrorRoutes d
        ++ (marker "error" :: (err404Block d ++ err500Block d)) := by
  simp [vercelRoutes, preErrorRoutes, List.append_assoc]

theorem preErrorRoutes_no_error (d : BuildDescription) :
    ∀ r ∈ preErrorRoutes d, (!isErrorMarker r) = true := by
  unfold preErrorRoutes
  exact
(forall_mem_append_of
(forall_mem_append_of
(forall_mem_append_of
(forall_mem_append_of
(forall_mem_append_of
(forall_mem_append_of
(forall_mem_append_of
(forall_mem_append_of
(forall_mem_append_of
(forall_mem_append_of
(forall_mem_append_of
(forall_mem_append_of
(forall_mem_append_of
(forall_mem_append_of
(forall_mem_append_of
(forall_mem_append_of
(forall_mem_append_of
(forall_mem_append_of
(forall_mem_append_of
(forall_mem_append_of
(forall_mem_append_of
(forall_mem_append_of
(forall_mem_append_of
(forall_mem_append_of
(forall_mem_append_of
(forall_mem_append_of
(forall_mem_append_of
(forall_mem_append_of
(forall_mem_append_of
(forall_mem_append_of
(forall_mem_append_of
(fun r hr => by rw [noerr_of_handle_none ((priorityRedirectRoutes_plain d r hr).1)])
(fun r hr => by rw [noerr_of_handle_none ((normalizeNextDataRoutes_plain d.config d.buildId (shouldHandleMiddlewareDataResolving d) true r hr).1)]))
(fun r hr => by rw [noerr_of_handle_none (i18nBlock_handle d r hr)]))
(fun r hr => by rw [noerr_of_handle_none ((headerRoutes_plain d r hr).1)]))
(fun r hr => by rw [noerr_of_handle_none ((nonPriorityRedirectRoutes_plain d r hr).1)]))
(fun r hr => by rw [noerr_of_handle_none ((middlewareRoutesOf_plain d r hr).1)]))
(fun r hr => by rw [noerr_of_handle_none ((beforeFilesRoutes_plain d r hr).1)]))
(fun r hr => by rw [noerr_of_handle_none ((literal404Block_plain d r hr).1)]))
(fun r hr => by rw [noerr_of_handle_none ((literal500Block_plain d r hr).1)]))
(fun r hr => by rw [noerr_of_handle_none ((denormalizeNextDataRoutes_plain d.config d.buildId (shouldHandleMiddlewareDataResolving d) true r hr).1)]))
(fun r hr => by rw [noerr_of_handle_none ((appRscBlock_plain d r hr).1)]))
(fun r hr => by rw [mem_single hr]; rfl))
(fun r hr => by rw [noerr_of_handle_none ((basePathImageBlock_plain d r hr).1)]))
(fun r hr => by rw [noerr_of_handle_none ((normalizeNextDataRoutes_plain d.config d.buildId (shouldHandleMiddlewareDataResolving d) false r hr).1)]))
(fun r hr => by rw [noerr_of_handle_none ((noMiddlewareNextDataBlock_plain d r hr).1)]))
(fun r hr => by rw [noerr_of_handle_none ((indexRscBlock_plain d r hr).1)]))
(fun r hr => by rw [noerr_of_handle_none ((afterFilesRoutes_plain d r hr).1)]))
(fun r hr => by rw [noerr_of_handle_none ((rscRepairBlock_plain d r hr).1)]))
(fun r hr => by rw [mem_single hr]; rfl))
(fun r hr => by rw [noerr_of_handle_none ((fallbackRoutes_plain d r hr).1)]))
(fun r hr => by rw [noerr_of_handle_none ((catchAll404Block_plain d r hr).1)]))
(fun r hr => by rw [mem_single hr]; rfl))
(fun r hr => by rw [noerr_of_handle_none ((staticNotFoundBlock_plain d r hr).1)]))
(fun r hr => by rw [noerr_of_handle_none ((localeStripBlock_plain d r hr).1)]))
(fun r hr => by rw [noerr_of_handle_none ((segmentFallbackBlock_plain d r hr).1)]))
(fun r hr => by rw [mem_single hr]; rfl))
(fun r hr => by rw [noerr_of_handle_none ((denormalizeNextDataRoutes_plain d.config d.buildId (shouldHandleMiddlewareDataResolving d) false r hr).1)]))
(fun r hr => by rw [noerr_of_handle_none ((dynamicRoutesBlock_plain d r hr).1)]))
(fun r hr => by rw [noerr_of_handle_none ((middlewareDataBlock_plain d r hr).1)]))
(fun r hr => by rw [mem_single hr]; rfl))
(fun r hr => by rw [noerr_of_handle_none ((cachingBlock_plain d r hr).1)]))
(fun r hr => by rw [noerr_of_handle_none ((xMatchedPathBlock_plain d r hr).1)]))

theorem dropWhile_append_all {p : Route → Bool} :
    ∀ (a b : List Route), (∀ x ∈ a, p x = true) →
      List.dropWhile p (a ++ b) = List.dropWhile p b := by
  intro a
  induction a with
  | nil => intro b h; rfl
  | cons x a ih =>
    intro b h
    rw [List.cons_append, List.dropWhile_cons,
      if_pos (h x (List.mem_cons_self x a))]
    exact ih b (fun y hy => h y (List.mem_cons_of_mem x hy))

/-- Extracting the error section of the compiled route list. -/
theorem errorSection_vercelRoutes (d : BuildDescription) :
    errorSection (vercelRoutes d) = err404Block d ++ err500Block d := by
  unfold errorSection
  rw [vercelRoutes_eq_preError,
    dropWhile_append_all _ _ (preErrorRoutes_no_error d),
    List.dropWhile_cons]
  simp [isErrorMarker, marker]

/-! ### Claim C2 -/

/-- i18n set but `localeDetection: false` and no domains: several locale
rule groups are then absent. -/
def descC2x : BuildDescription :=
  { config := { i18n := some { defaultLocale := "en", locales := ["en"],
                               localeDetection := some false } } }

/-- Claim C2, counterexample: with `i18n` present but `localeDetection:
false` (and no domains), no `locale.redirect` rule appears anywhere in the
output (every emitted route has no `locale` field), so the locale rule
groups are not all emitted — the emission is conditional, not
all-or-nothing. -/
theorem claimC2_counterexample :
    descC2x.config.i18n.isSome = true
    ∧ (vercelRoutes descC2x).all (fun r => r.locale.isNone) = true := by
  refine ⟨rfl, by decide⟩

/-- Claim C2 (amended): with `i18n` unset the locale block, the
locale-prefix-stripping block and the wildcard table are all absent and no
route of the output carries a `locale` field; with `i18n` set the locale
block and the stripping block are always non-empty, but the
`locale.redirect` rules are emitted exactly when `localeDetection` is not
`false` (the domain-redirect rule additionally requires a non-empty
`domains` list, and the locale-aware 500 fallback requires a 500 output) —
so emission of the locale rule groups is conditional rather than
all-or-nothing. -/
theorem claimC2 (d : BuildDescription) :
    (d.config.i18n = none →
      i18nBlock d = [] ∧ localeStripBlock d = [] ∧ wildcardOf d = none
      ∧ ∀ r ∈ vercelRoutes d, r.locale = none)
    ∧ (∀ i, d.config.i18n = some i →
        i18nBlock d ≠ [] ∧ localeStripBlock d ≠ []
        ∧ ((i18nBlock d).any (fun r => r.locale.isSome) = true
            ↔ ¬i.localeDetection = some false)) := by
  constructor
  · intro hnone
    refine ⟨by simp [i18nBlock, hnone], by simp [localeStripBlock, hnone],
      by simp [wildcardOf, hnone], vercelRoutes_locale_none d hnone⟩
  · intro i hi
    refine ⟨by simp [i18nBlock, hi], by simp [localeStripBlock, hi], ?_⟩
    by_cases hdet : i.localeDetection = some false
    · have hb : (i.localeDetection == some false) = true := by
        simp [hdet]
      simp [i18nBlock, hi, hb, hdet]
    · have hb : (i.localeDetection == some false) = false := by
        simpa using hdet
      simp [i18nBlock, hi, hb, hdet]

/-- Claim C2 witness: the amended theorem at the empty description —
no locale block is emitted. -/
theorem claimC2_witness : i18nBlock descC1x = [] :=
  ((claimC2 descC1x).1 rfl).1

/-! ### Claim C7 -/

/-- The destinations the error-phase 404 fallback rules must carry. -/
def err404ExpectedDests (d : BuildDescription) : List (Option String) :=
  let nf := notFoundPath d.hasNotFoundOutput d.has404Output
  match d.config.i18n with
  | some i =>
    [some (posixJoin ["/", d.config.basePath, "/$nextLocale", nf]),
     some (posixJoin ["/", d.config.basePath, "/" ++ i.defaultLocale, nf])]
  | none => [some (posixJoin ["/", d.config.basePath, nf])]

/-- Claim C7: the not-found fallback destination follows the precedence
`/_not-found` over `/404` over `/_error`, and the rules after the `error`
phase marker are exactly the 404 fallback block followed by the 500
fallback block, the 404 rules carrying exactly the locale- and
basePath-qualified `notFoundPath` destination. -/
theorem claimC7 (d : BuildDescription) :
    notFoundPath true true = "/_not-found"
    ∧ notFoundPath true false = "/_not-found"
    ∧ notFoundPath false true = "/404"
    ∧ notFoundPath false false = "/_error"
    ∧ errorSection (vercelRoutes d) = err404Block d ++ err500Block d
    ∧ (err404Block d).map Route.dest = err404ExpectedDests d := by
  refine ⟨rfl, rfl, rfl, rfl, errorSection_vercelRoutes d, ?_⟩
  rcases hi : d.config.i18n with _ | i <;>
    simp [err404Block, err404ExpectedDests, hi]

end AdapterVercel
